import Mathlib

set_option maxRecDepth 20000

/-! Shallow embedding of the montague DNS codec: `src/dns/structs.rs`, plus
the domain-name codec that `structs.rs` imports from the repository's
`names` module (whose file is not present under `src/`; it is modelled from
the specification, see the doc comments on `names.serialize_name` and
`names.deserialize_name`).

Byte buffers are `List Nat`, each element intended below 256; Rust
`u8`/`u16`/`u32` arithmetic is modelled on `Nat` with explicit shifting and
masking exactly where the source shifts and masks.  Rust panics (failed
`expect` calls and out-of-range slice indexing) are modelled as an explicit
`DnsError.panic` outcome so that claims about crash behaviour are statable;
the decode-error taxonomy of the specification is the other constructors. -/

inductive DnsError where
  | truncatedInput : DnsError
  | unknownEnumValue : DnsError
  | invalidNameEncoding : DnsError
  | pointerLoopOrOverflow : DnsError
  | panic : String → DnsError
deriving DecidableEq

abbrev DnsResult (α : Type) := Except DnsError α

instance {ε α : Type} [DecidableEq ε] [DecidableEq α] : DecidableEq (Except ε α) :=
  fun a b =>
    match a, b with
    | .ok x, .ok y =>
      if h : x = y then .isTrue (by rw [h]) else .isFalse (by simp [h])
    | .error x, .error y =>
      if h : x = y then .isTrue (by rw [h]) else .isFalse (by simp [h])
    | .ok _, .error _ => .isFalse (by simp)
    | .error _, .ok _ => .isFalse (by simp)

/-- Rust indexing `bytes[i]` on a slice: panics when out of bounds. -/
def listIndexP (bytes : List Nat) (i : Nat) : DnsResult Nat :=
  match bytes[i]? with
  | some b => .ok b
  | none => .error (.panic "index out of bounds")

/-- Rust range slicing `&bytes[a..b]`: panics when the range is out of
bounds, exactly as Rust does. -/
def rustSlice (bytes : List Nat) (a b : Nat) : DnsResult (List Nat) :=
  if a ≤ b ∧ b ≤ bytes.length then .ok ((bytes.drop a).take (b - a))
  else .error (.panic "slice index out of range")

/-- Rust `Option::expect`: panics with the message on `None`. -/
def expectSome {α : Type} (o : Option α) (msg : String) : DnsResult α :=
  match o with
  | some a => .ok a
  | none => .error (.panic msg)

/-- Source `big_endian_bytes_to_u16`: reads `bytes[0]` and `bytes[1]` of the
passed slice (extra bytes are irrelevant), big-endian. -/
def big_endian_bytes_to_u16 (bytes : List Nat) : DnsResult Nat := do
  let b0 ← listIndexP bytes 0
  let b1 ← listIndexP bytes 1
  .ok ((b0 <<< 8) + b1)

/-- Source `big_endian_bytes_to_u32`. -/
def big_endian_bytes_to_u32 (bytes : List Nat) : DnsResult Nat := do
  let b0 ← listIndexP bytes 0
  let b1 ← listIndexP bytes 1
  let b2 ← listIndexP bytes 2
  let b3 ← listIndexP bytes 3
  .ok ((b0 <<< 24) + (b1 <<< 16) + (b2 <<< 8) + b3)

/-- Source `u16_to_big_endian_bytes`: `[(num >> 8) & 0xff, num & 0xff]`. -/
def u16_to_big_endian_bytes (num : Nat) : List Nat :=
  [(num >>> 8) &&& 255, num &&& 255]

/-- Source `u32_to_big_endian_bytes`. -/
def u32_to_big_endian_bytes (num : Nat) : List Nat :=
  [(num >>> 24) &&& 255, (num >>> 16) &&& 255, (num >>> 8) &&& 255, num &&& 255]

/-- Source `DnsOpcode` enum (registered opcodes). -/
inductive DnsOpcode where
  | Query | IQuery | Status | Zone | Update | DSO
deriving DecidableEq

/-- Rust `as u8` on `DnsOpcode` (the discriminant). -/
def DnsOpcode.to_u8 : DnsOpcode → Nat
  | .Query => 0
  | .IQuery => 1
  | .Status => 2
  | .Zone => 4
  | .Update => 5
  | .DSO => 6

/-- `num::FromPrimitive::from_u8` for `DnsOpcode` as derived in the source:
the inverse of the discriminant assignment, `none` off the registry. -/
def DnsOpcode.from_u8 : Nat → Option DnsOpcode
  | 0 => some .Query
  | 1 => some .IQuery
  | 2 => some .Status
  | 4 => some .Zone
  | 5 => some .Update
  | 6 => some .DSO
  | _ => none

/-- Source `DnsRCode` enum (registered response codes). -/
inductive DnsRCode where
  | NoError | FormError | ServFail | NXDomain | NotImp | Refused
  | YXDomain | YXRRSet | NXRRSet | NotAuth | NotZone | DSOTypeNI
deriving DecidableEq

/-- Rust `as u8` on `DnsRCode`. -/
def DnsRCode.to_u8 : DnsRCode → Nat
  | .NoError => 0
  | .FormError => 1
  | .ServFail => 2
  | .NXDomain => 3
  | .NotImp => 4
  | .Refused => 5
  | .YXDomain => 6
  | .YXRRSet => 7
  | .NXRRSet => 8
  | .NotAuth => 9
  | .NotZone => 10
  | .DSOTypeNI => 11

/-- `num::FromPrimitive::from_u8` for `DnsRCode`. -/
def DnsRCode.from_u8 : Nat → Option DnsRCode
  | 0 => some .NoError
  | 1 => some .FormError
  | 2 => some .ServFail
  | 3 => some .NXDomain
  | 4 => some .NotImp
  | 5 => some .Refused
  | 6 => some .YXDomain
  | 7 => some .YXRRSet
  | 8 => some .NXRRSet
  | 9 => some .NotAuth
  | 10 => some .NotZone
  | 11 => some .DSOTypeNI
  | _ => none

/-- Source `DnsRRType` enum: the hand-copied IANA record-type registry. -/
inductive DnsRRType where
  | A | NS | MD | MF | CNAME | SOA | MB | MG | MR | NULL
  | WKS | PTR | HINFO | MINFO | MX | TXT | RP | AFSDB | X25 | ISDN
  | RT | NSAP | NSAPPTR | SIG | KEY | PX | GPOS | AAAA | LOC | NXT
  | EID | NIMLOC | SRV | ATMA | NAPTR | KX | CERT | A6 | DNAME | SINK
  | OPT | APL | DS | SSHFP | IPSECKEY | RRSIG | NSEC | DNSKEY | DHCID
  | NSEC3 | NSEC3PARAM | TLSA | SMIMEA | HIP | NINFO | RKEY | TALINK
  | CDS | CDNSKEY | OPENPGPKEY | CSYNC | ZONEMD | SPF | UINFO | UID
  | GID | UNSPEC | NID | L32 | L64 | LP | EUI4 | EUI64 | TKEY | TSIG
  | IXFR | AXF | MAILB | MAILA | ANY | URI | CAA | AVC | DOA
  | AMTRELAY | TA | DLV
deriving DecidableEq

/-- Rust `as u16` on `DnsRRType` (the discriminant). -/
def DnsRRType.to_u16 : DnsRRType → Nat
  | .A => 1 | .NS => 2 | .MD => 3 | .MF => 4 | .CNAME => 5 | .SOA => 6
  | .MB => 7 | .MG => 8 | .MR => 9 | .NULL => 10 | .WKS => 11 | .PTR => 12
  | .HINFO => 13 | .MINFO => 14 | .MX => 15 | .TXT => 16 | .RP => 17
  | .AFSDB => 18 | .X25 => 19 | .ISDN => 20 | .RT => 21 | .NSAP => 22
  | .NSAPPTR => 23 | .SIG => 24 | .KEY => 25 | .PX => 26 | .GPOS => 27
  | .AAAA => 28 | .LOC => 29 | .NXT => 30 | .EID => 31 | .NIMLOC => 32
  | .SRV => 33 | .ATMA => 34 | .NAPTR => 35 | .KX => 36 | .CERT => 37
  | .A6 => 38 | .DNAME => 39 | .SINK => 40 | .OPT => 41 | .APL => 42
  | .DS => 43 | .SSHFP => 44 | .IPSECKEY => 45 | .RRSIG => 46 | .NSEC => 47
  | .DNSKEY => 48 | .DHCID => 49 | .NSEC3 => 50 | .NSEC3PARAM => 51
  | .TLSA => 52 | .SMIMEA => 53 | .HIP => 55 | .NINFO => 56 | .RKEY => 57
  | .TALINK => 58 | .CDS => 59 | .CDNSKEY => 60 | .OPENPGPKEY => 61
  | .CSYNC => 62 | .ZONEMD => 63 | .SPF => 99 | .UINFO => 100 | .UID => 101
  | .GID => 102 | .UNSPEC => 103 | .NID => 104 | .L32 => 105 | .L64 => 106
  | .LP => 107 | .EUI4 => 108 | .EUI64 => 109 | .TKEY => 249 | .TSIG => 250
  | .IXFR => 251 | .AXF => 252 | .MAILB => 253 | .MAILA => 254 | .ANY => 255
  | .URI => 256 | .CAA => 257 | .AVC => 258 | .DOA => 259 | .AMTRELAY => 260
  | .TA => 32768 | .DLV => 32769

/-- `num::FromPrimitive::from_u16` for `DnsRRType`. -/
def DnsRRType.from_u16 : Nat → Option DnsRRType
  | 1 => some .A | 2 => some .NS | 3 => some .MD | 4 => some .MF
  | 5 => some .CNAME | 6 => some .SOA | 7 => some .MB | 8 => some .MG
  | 9 => some .MR | 10 => some .NULL | 11 => some .WKS | 12 => some .PTR
  | 13 => some .HINFO | 14 => some .MINFO | 15 => some .MX | 16 => some .TXT
  | 17 => some .RP | 18 => some .AFSDB | 19 => some .X25 | 20 => some .ISDN
  | 21 => some .RT | 22 => some .NSAP | 23 => some .NSAPPTR | 24 => some .SIG
  | 25 => some .KEY | 26 => some .PX | 27 => some .GPOS | 28 => some .AAAA
  | 29 => some .LOC | 30 => some .NXT | 31 => some .EID | 32 => some .NIMLOC
  | 33 => some .SRV | 34 => some .ATMA | 35 => some .NAPTR | 36 => some .KX
  | 37 => some .CERT | 38 => some .A6 | 39 => some .DNAME | 40 => some .SINK
  | 41 => some .OPT | 42 => some .APL | 43 => some .DS | 44 => some .SSHFP
  | 45 => some .IPSECKEY | 46 => some .RRSIG | 47 => some .NSEC
  | 48 => some .DNSKEY | 49 => some .DHCID | 50 => some .NSEC3
  | 51 => some .NSEC3PARAM | 52 => some .TLSA | 53 => some .SMIMEA
  | 55 => some .HIP | 56 => some .NINFO | 57 => some .RKEY
  | 58 => some .TALINK | 59 => some .CDS | 60 => some .CDNSKEY
  | 61 => some .OPENPGPKEY | 62 => some .CSYNC | 63 => some .ZONEMD
  | 99 => some .SPF | 100 => some .UINFO | 101 => some .UID | 102 => some .GID
  | 103 => some .UNSPEC | 104 => some .NID | 105 => some .L32
  | 106 => some .L64 | 107 => some .LP | 108 => some .EUI4
  | 109 => some .EUI64 | 249 => some .TKEY | 250 => some .TSIG
  | 251 => some .IXFR | 252 => some .AXF | 253 => some .MAILB
  | 254 => some .MAILA | 255 => some .ANY | 256 => some .URI
  | 257 => some .CAA | 258 => some .AVC | 259 => some .DOA
  | 260 => some .AMTRELAY | 32768 => some .TA | 32769 => some .DLV
  | _ => none

/-- Source `DnsClass` enum. -/
inductive DnsClass where
  | IN | CS | CH | HS | NONE | ANY
deriving DecidableEq

/-- Rust `as u16` on `DnsClass`. -/
def DnsClass.to_u16 : DnsClass → Nat
  | .IN => 1
  | .CS => 2
  | .CH => 3
  | .HS => 4
  | .NONE => 254
  | .ANY => 255

/-- `num::FromPrimitive::from_u16` for `DnsClass`. -/
def DnsClass.from_u16 : Nat → Option DnsClass
  | 1 => some .IN
  | 2 => some .CS
  | 3 => some .CH
  | 4 => some .HS
  | 254 => some .NONE
  | 255 => some .ANY
  | _ => none

/-- Source `DnsFlags` struct. -/
structure DnsFlags where
  qr_bit : Bool
  opcode : DnsOpcode
  aa_bit : Bool
  tc_bit : Bool
  rd_bit : Bool
  ra_bit : Bool
  ad_bit : Bool
  cd_bit : Bool
  rcode : DnsRCode
deriving DecidableEq

/-- Source `DnsFlags::from_bytes`: bit extractions from `bytes[0]` and
`bytes[1]`, then registry lookups through `expect` (which panics). -/
def DnsFlags.from_bytes (bytes : List Nat) : DnsResult DnsFlags := do
  let b0 ← listIndexP bytes 0
  let b1 ← listIndexP bytes 1
  let qr_bit : Bool := (b0 >>> 7) &&& 1 == 1
  let aa_bit : Bool := (b0 >>> 2) &&& 1 == 1
  let tc_bit : Bool := (b0 >>> 1) &&& 1 == 1
  let rd_bit : Bool := b0 &&& 1 == 1
  let ra_bit : Bool := (b1 >>> 7) &&& 1 == 1
  let ad_bit : Bool := (b1 >>> 5) &&& 1 == 1
  let cd_bit : Bool := (b1 >>> 4) &&& 1 == 1
  let opcode_val := (b0 >>> 3) &&& 15
  let rcode_val := b1 &&& 15
  let opcode ← expectSome (DnsOpcode.from_u8 opcode_val) "Invalid opcode"
  let rcode ← expectSome (DnsRCode.from_u8 rcode_val) "Invalid rcode"
  .ok { qr_bit, opcode, aa_bit, tc_bit, rd_bit, ra_bit, ad_bit, cd_bit, rcode }

/-- The first flag byte built by `DnsFlags::to_bytes`: conditional ORs for
qr/aa/tc/rd, then the 4-bit-masked opcode shifted into bits 3-6. -/
def mkFlagByte0 (qr aa tc rd : Bool) (opcode : DnsOpcode) : Nat :=
  let b0 := 0
  let b0 := if qr then b0 ||| 128 else b0
  let b0 := if aa then b0 ||| 4 else b0
  let b0 := if tc then b0 ||| 2 else b0
  let b0 := if rd then b0 ||| 1 else b0
  b0 ||| ((opcode.to_u8 &&& 15) <<< 3)

/-- The second flag byte built by `DnsFlags::to_bytes`: conditional ORs for
ra/ad/cd, then the 4-bit-masked rcode in bits 0-3. -/
def mkFlagByte1 (ra ad cd : Bool) (rcode : DnsRCode) : Nat :=
  let b1 := 0
  let b1 := if ra then b1 ||| 128 else b1
  let b1 := if ad then b1 ||| 32 else b1
  let b1 := if cd then b1 ||| 16 else b1
  b1 ||| (rcode.to_u8 &&& 15)

/-- Source `DnsFlags::to_bytes`. -/
def DnsFlags.to_bytes (f : DnsFlags) : List Nat :=
  [mkFlagByte0 f.qr_bit f.aa_bit f.tc_bit f.rd_bit f.opcode,
   mkFlagByte1 f.ra_bit f.ad_bit f.cd_bit f.rcode]

/-- Worker for name decoding.  `fuel` is a structural-recursion bound that
never runs out in practice: each literal label grows `enc` by at least 2
with `enc` capped at 254 (so at most 127 label steps), and pointer steps
are capped by `hops`.  `ret` holds the caller-visible return cursor once a
pointer has been followed (frozen at two bytes past the first pointer);
`acc` accumulates labels; `enc` tracks the name's total encoded length so
far (length octets plus label bytes, excluding the terminator). -/
def nameWorker (bytes : List Nat) :
    Nat → Nat → Nat → List (List Nat) → Option Nat → Nat →
    DnsResult (List (List Nat) × Nat)
  | 0, _, _, _, _, _ => .error .pointerLoopOrOverflow
  | fuel + 1, hops, cur, acc, ret, enc =>
    match bytes[cur]? with
    | none => .error .truncatedInput
    | some c =>
      if c = 0 then
        .ok (acc, ret.getD (cur + 1))
      else if c ≤ 63 then
        if cur + 1 + c ≤ bytes.length then
          if enc + 1 + c ≤ 254 then
            nameWorker bytes fuel hops (cur + 1 + c)
              (acc ++ [(bytes.drop (cur + 1)).take c]) ret (enc + 1 + c)
          else .error .invalidNameEncoding
        else .error .truncatedInput
      else if 192 ≤ c then
        match hops with
        | 0 => .error .pointerLoopOrOverflow
        | hops + 1 =>
          match bytes[cur + 1]? with
          | none => .error .truncatedInput
          | some c2 =>
            nameWorker bytes fuel hops ((c &&& 63) * 256 + c2) acc
              (some (ret.getD (cur + 2))) enc
      else .error .invalidNameEncoding

/-- Modelled from the spec: the source file for the repository's `names`
module (`names::deserialize_name`, imported by `src/dns/structs.rs`) is not
under `src/`.  Per the spec's name-codec design: read one control octet at
the cursor; 0 terminates the name; 1-63 is a literal label of that many
following octets; 0xC0-0xFF is a 14-bit compression pointer (low 6 bits of
the control octet plus the next octet) after which decoding continues at
the target while the caller-visible cursor is frozen two bytes past the
first pointer; 0x40-0xBF is an invalid-name-encoding error; pointer chasing
is bounded by a maximum hop count (64 here — the spec leaves the exact
bound an implementation choice) and exceeding it is a
pointer-loop-or-overflow error, never an infinite loop; a name whose total
encoded length would exceed 255 bytes is an invalid-name-encoding error;
reading past the end of the buffer is a truncated-input error. -/
def names.deserialize_name (bytes : List Nat) (pos : Nat) :
    DnsResult (List (List Nat) × Nat) :=
  nameWorker bytes 512 64 pos [] none 0

/-- Modelled from the spec: the source file for the repository's `names`
module (`names::serialize_name`, imported by `src/dns/structs.rs`) is not
under `src/`.  Per the spec's name-codec design, encoding always emits the
uncompressed form: each label prefixed by its one-byte length, followed by
a zero terminator octet; compression pointers are never emitted.  (The
spec's encode-side length guard is not representable in the signature the
callers in `structs.rs` use — they consume a plain byte vector — so the
encoder is total here and length constraints appear as hypotheses of the
theorems that need them.) -/
def names.serialize_name (name : List (List Nat)) : List Nat :=
  name.flatMap (fun label => label.length :: label) ++ [0]

/-- Source `DnsQuestion` struct.  Rust stores labels as `String`; labels
are modelled as byte lists (the spec: 1-63 bytes of arbitrary octets). -/
structure DnsQuestion where
  qname : List (List Nat)
  qtype : DnsRRType
  qclass : DnsClass
deriving DecidableEq

/-- Source `DnsQuestion::to_bytes`. -/
def DnsQuestion.to_bytes (q : DnsQuestion) : List Nat :=
  names.serialize_name q.qname ++
    u16_to_big_endian_bytes q.qtype.to_u16 ++
    u16_to_big_endian_bytes q.qclass.to_u16

/-- Source `DnsResourceRecord` struct. -/
structure DnsResourceRecord where
  name : List (List Nat)
  rr_type : DnsRRType
  class_ : DnsClass
  ttl : Nat
  rd_length : Nat
  record : List Nat
deriving DecidableEq

/-- Source `DnsResourceRecord::from_bytes`: name, then type, class, TTL and
record-data length at fixed offsets after it, then a copy of exactly
`rd_length` payload bytes; the registry lookups happen last (as in the
source) and panic on unregistered values. -/
def DnsResourceRecord.from_bytes (packet_bytes : List Nat) (pos : Nat) :
    DnsResult (DnsResourceRecord × Nat) := do
  let (name, new_pos) ← names.deserialize_name packet_bytes pos
  let s1 ← rustSlice packet_bytes new_pos (new_pos + 2)
  let rrtype_num ← big_endian_bytes_to_u16 s1
  let s2 ← rustSlice packet_bytes (new_pos + 2) (new_pos + 4)
  let class_num ← big_endian_bytes_to_u16 s2
  let s3 ← rustSlice packet_bytes (new_pos + 4) (new_pos + 8)
  let ttl ← big_endian_bytes_to_u32 s3
  let s4 ← rustSlice packet_bytes (new_pos + 8) (new_pos + 10)
  let rd_length ← big_endian_bytes_to_u16 s4
  let record ← rustSlice packet_bytes (new_pos + 10) (new_pos + 10 + rd_length)
  let rr_type ← expectSome (DnsRRType.from_u16 rrtype_num) "Invalid rrtype"
  let class_ ← expectSome (DnsClass.from_u16 class_num) "Invalid class"
  .ok ({ name, rr_type, class_, ttl, rd_length, record },
       new_pos + 10 + rd_length)

/-- Source `DnsResourceRecord::to_bytes`: note that the length field
written is the stored `rd_length`, not the payload's length. -/
def DnsResourceRecord.to_bytes (rr : DnsResourceRecord) : List Nat :=
  names.serialize_name rr.name ++
    u16_to_big_endian_bytes rr.rr_type.to_u16 ++
    u16_to_big_endian_bytes rr.class_.to_u16 ++
    u32_to_big_endian_bytes rr.ttl ++
    u16_to_big_endian_bytes rr.rd_length ++
    rr.record

/-- Source `DnsPacket` struct. -/
structure DnsPacket where
  id : Nat
  flags : DnsFlags
  questions : List DnsQuestion
  answers : List DnsResourceRecord
  nameservers : List DnsResourceRecord
  addl_recs : List DnsResourceRecord
deriving DecidableEq

/-- The question-decoding body of the `qd_count` loop in
`DnsPacket::from_bytes` (lines 57-73 of the source): name, then qtype and
qclass through panicking registry lookups; cursor advances to
`new_pos + 4`. -/
def readQuestion (bytes : List Nat) (pos : Nat) :
    DnsResult (DnsQuestion × Nat) := do
  let (qname, new_pos) ← names.deserialize_name bytes pos
  let s1 ← rustSlice bytes new_pos (new_pos + 2)
  let qtype_num ← big_endian_bytes_to_u16 s1
  let s2 ← rustSlice bytes (new_pos + 2) (new_pos + 4)
  let qclass_num ← big_endian_bytes_to_u16 s2
  let qtype ← expectSome (DnsRRType.from_u16 qtype_num) "Invalid qtype"
  let qclass ← expectSome (DnsClass.from_u16 qclass_num) "Invalid qclass"
  .ok ({ qname, qtype, qclass }, new_pos + 4)

/-- The `for _ in 0..qd_count` loop of `DnsPacket::from_bytes`, threading
the cursor through `count` question decodes. -/
def readQuestions (bytes : List Nat) :
    Nat → Nat → DnsResult (List DnsQuestion × Nat)
  | 0, pos => .ok ([], pos)
  | count + 1, pos => do
    let (q, pos1) ← readQuestion bytes pos
    let (qs, pos2) ← readQuestions bytes count pos1
    .ok (q :: qs, pos2)

/-- One of the three resource-record loops of `DnsPacket::from_bytes`,
threading the cursor through `count` record decodes. -/
def readRRs (bytes : List Nat) :
    Nat → Nat → DnsResult (List DnsResourceRecord × Nat)
  | 0, pos => .ok ([], pos)
  | count + 1, pos => do
    let (rr, pos1) ← DnsResourceRecord.from_bytes bytes pos
    let (rrs, pos2) ← readRRs bytes count pos1
    .ok (rr :: rrs, pos2)

/-- Source `DnsPacket::from_bytes`: header fields at fixed offsets 0-11
(panicking on short buffers, as the Rust slice expressions do), then the
four count-driven section loops. -/
def DnsPacket.from_bytes (bytes : List Nat) : DnsResult DnsPacket := do
  let s0 ← rustSlice bytes 0 2
  let id ← big_endian_bytes_to_u16 s0
  let sf ← rustSlice bytes 2 4
  let flags ← DnsFlags.from_bytes sf
  let s1 ← rustSlice bytes 4 6
  let qd_count ← big_endian_bytes_to_u16 s1
  let s2 ← rustSlice bytes 6 8
  let an_count ← big_endian_bytes_to_u16 s2
  let s3 ← rustSlice bytes 8 10
  let ns_count ← big_endian_bytes_to_u16 s3
  let s4 ← rustSlice bytes 10 12
  let ar_count ← big_endian_bytes_to_u16 s4
  let (questions, pos1) ← readQuestions bytes qd_count 12
  let (answers, pos2) ← readRRs bytes an_count pos1
  let (nameservers, pos3) ← readRRs bytes ns_count pos2
  let (addl_recs, _) ← readRRs bytes ar_count pos3
  .ok { id, flags, questions, answers, nameservers, addl_recs }

/-- Source `DnsPacket::to_bytes`: id, flags, the four section counts (each
`len() as u16`, i.e. the length reduced mod 2^16), then every section's
elements' encodings concatenated in section order. -/
def DnsPacket.to_bytes (p : DnsPacket) : List Nat :=
  u16_to_big_endian_bytes p.id ++
    p.flags.to_bytes ++
    u16_to_big_endian_bytes (p.questions.length % 65536) ++
    u16_to_big_endian_bytes (p.answers.length % 65536) ++
    u16_to_big_endian_bytes (p.nameservers.length % 65536) ++
    u16_to_big_endian_bytes (p.addl_recs.length % 65536) ++
    p.questions.flatMap DnsQuestion.to_bytes ++
    p.answers.flatMap DnsResourceRecord.to_bytes ++
    p.nameservers.flatMap DnsResourceRecord.to_bytes ++
    p.addl_recs.flatMap DnsResourceRecord.to_bytes

/-- The data model's constraints on a domain name: labels of 1-63 octets,
and total encoded length (length octets, label bytes, terminator) at most
255 bytes. -/
@[reducible] def ValidName (name : List (List Nat)) : Prop :=
  (∀ l ∈ name, 1 ≤ l.length ∧ l.length ≤ 63 ∧ ∀ b ∈ l, b < 256) ∧
  (names.serialize_name name).length ≤ 255

/-- The data model's constraints on a question. -/
@[reducible] def ValidQuestion (q : DnsQuestion) : Prop :=
  ValidName q.qname

/-- The data model's constraints on a resource record: valid name, 32-bit
TTL, and a record-data length field kept consistent with the stored
payload, which is itself a 16-bit-length byte span. -/
@[reducible] def ValidRR (rr : DnsResourceRecord) : Prop :=
  ValidName rr.name ∧ rr.ttl < 4294967296 ∧
  rr.rd_length = rr.record.length ∧ rr.record.length < 65536 ∧
  ∀ b ∈ rr.record, b < 256

/-- The data model's constraints on a packet: 16-bit id, valid members,
and sections whose lengths fit the 16-bit count fields. -/
@[reducible] def ValidPacket (p : DnsPacket) : Prop :=
  p.id < 65536 ∧
  (∀ q ∈ p.questions, ValidQuestion q) ∧
  (∀ rr ∈ p.answers, ValidRR rr) ∧
  (∀ rr ∈ p.nameservers, ValidRR rr) ∧
  (∀ rr ∈ p.addl_recs, ValidRR rr) ∧
  p.questions.length < 65536 ∧ p.answers.length < 65536 ∧
  p.nameservers.length < 65536 ∧ p.addl_recs.length < 65536

/-- Sample flag value used by concrete witnesses. -/
def sampleFlags : DnsFlags :=
  { qr_bit := false, opcode := .Query, aa_bit := false, tc_bit := false,
    rd_bit := true, ra_bit := false, ad_bit := false, cd_bit := false,
    rcode := .NoError }

/-- Sample question used by concrete witnesses. -/
def sampleQuestion : DnsQuestion :=
  { qname := [[3, 1, 2]], qtype := .A, qclass := .IN }

/-- Sample resource record used by concrete witnesses. -/
def sampleRR : DnsResourceRecord :=
  { name := [[5]], rr_type := .AAAA, class_ := .IN, ttl := 300,
    rd_length := 2, record := [7, 8] }

/-- Sample packet used by concrete witnesses. -/
def samplePacket : DnsPacket :=
  { id := 4660, flags := sampleFlags, questions := [sampleQuestion],
    answers := [sampleRR], nameservers := [], addl_recs := [] }

/-- A resource record whose stored `rd_length` disagrees with its payload
length: the input refuting the claim that encode re-derives the length
field from the payload. -/
def badLenRR : DnsResourceRecord :=
  { name := [], rr_type := .A, class_ := .IN, ttl := 0,
    rd_length := 5, record := [] }

/-- A packet with 65536 questions, for the count-wraparound claim. -/
def hugePacket : DnsPacket :=
  { id := 0, flags := sampleFlags,
    questions := List.replicate 65536 { qname := [], qtype := .A, qclass := .IN },
    answers := [], nameservers := [], addl_recs := [] }

/-- A concrete well-formed resource-record buffer: root name, type A,
class IN, ttl 0, rd_length 2, payload [9, 9]. -/
def rrBuf : List Nat := [0, 0, 1, 0, 1, 0, 0, 0, 0, 0, 2, 9, 9]

/-- The record decoded from `rrBuf`. -/
def rrVal : DnsResourceRecord :=
  { name := [], rr_type := .A, class_ := .IN, ttl := 0,
    rd_length := 2, record := [9, 9] }

/-- C1: the claim says every out-of-registry opcode/rcode/record-type/class
wire value makes decoding return an UnknownEnumValue failure and that it
never panics.  The code instead panics: `DnsFlags::from_bytes` on flag
bytes `0x18 0x00` (opcode 3, unassigned) hits `expect("Invalid opcode")`;
`DnsPacket::from_bytes` on a 12-byte header with those flag bytes
propagates that panic; `DnsResourceRecord::from_bytes` on a record with
type 0 (unassigned) hits `expect("Invalid rrtype")`.  This theorem
evaluates the embedded code at those failing inputs. -/
theorem c1_unknown_enum_panics :
    DnsFlags.from_bytes [24, 0] = .error (.panic "Invalid opcode") ∧
    DnsPacket.from_bytes [0, 0, 24, 0, 0, 0, 0, 0, 0, 0, 0, 0] =
      .error (.panic "Invalid opcode") ∧
    DnsResourceRecord.from_bytes [0, 0, 0, 0, 1, 0, 0, 0, 0, 0, 0] 0 =
      .error (.panic "Invalid rrtype") := by
  refine ⟨by decide, by decide, by decide⟩

/-- C2: the claim says any buffer shorter than the 12-byte header (and any
fixed-width read past the end) yields a TruncatedInput error.  The code
instead panics on the out-of-range slice: an 11-byte all-zero buffer
panics at the `&bytes[10..12]` slice for ARCOUNT, and the empty buffer
panics at the very first `&bytes[0..2]` slice.  This theorem evaluates the
embedded code at those failing inputs. -/
theorem c2_short_buffer_panics :
    DnsPacket.from_bytes (List.replicate 11 0) =
      .error (.panic "slice index out of range") ∧
    DnsPacket.from_bytes [] = .error (.panic "slice index out of range") := by
  refine ⟨by decide, by decide⟩

/-- C3 counterexample: for the record `badLenRR` (stored `rd_length` 5,
empty payload), the two length-field bytes emitted by
`DnsResourceRecord::to_bytes` (at offset 9, after the 1-byte root name,
type, class and TTL) are not the encoding of the payload's actual length,
refuting the claim that encode writes `record.len()` as the length field. -/
theorem c3_counterexample :
    ((badLenRR.to_bytes.drop 9).take 2 =
        u16_to_big_endian_bytes badLenRR.record.length) = False := by
  decide

/-- C3 amended: `DnsResourceRecord::to_bytes` writes the stored
`rd_length` field (a caller-supplied value) as the record-data length
field, and the payload bytes follow it; the emitted length field therefore
equals the number of payload bytes after it only when `rd_length` equals
`record.len()`. -/
theorem c3_rd_length_written (rr : DnsResourceRecord) :
    ((rr.to_bytes.drop ((names.serialize_name rr.name).length + 8)).take 2 =
      u16_to_big_endian_bytes rr.rd_length) ∧
    rr.to_bytes.drop ((names.serialize_name rr.name).length + 10) = rr.record := by
  have h : rr.to_bytes =
      names.serialize_name rr.name ++
        (u16_to_big_endian_bytes rr.rr_type.to_u16 ++
          (u16_to_big_endian_bytes rr.class_.to_u16 ++
            (u32_to_big_endian_bytes rr.ttl ++
              (u16_to_big_endian_bytes rr.rd_length ++ rr.record)))) := by
    simp [DnsResourceRecord.to_bytes]
  refine ⟨?_, ?_⟩
  · rw [h, List.drop_append 8]
    simp [u16_to_big_endian_bytes, u32_to_big_endian_bytes]
  · rw [h, List.drop_append 10]
    simp [u16_to_big_endian_bytes, u32_to_big_endian_bytes]

/-- C6: the flags decoder's two concrete scenarios: `0x01 0x20` decodes to
rd and ad set with opcode Query and rcode NoError, all other bits clear;
`0xAC 0x23` decodes to qr, aa and ad set with opcode Update and rcode
NXDomain. -/
theorem c6_flags_concrete :
    DnsFlags.from_bytes [1, 32] =
      .ok { qr_bit := false, opcode := .Query, aa_bit := false,
            tc_bit := false, rd_bit := true, ra_bit := false,
            ad_bit := true, cd_bit := false, rcode := .NoError } ∧
    DnsFlags.from_bytes [172, 35] =
      .ok { qr_bit := true, opcode := .Update, aa_bit := true,
            tc_bit := false, rd_bit := false, ra_bit := false,
            ad_bit := true, cd_bit := false, rcode := .NXDomain } := by
  refine ⟨by decide, by decide⟩

/-- C5: `DnsPacket::to_bytes` emits, in order, the 16-bit id, the 2 flag
bytes, the four section counts computed as each stored section's length,
then the concatenated encodings of questions, answers, nameservers and
additional records in that fixed order.  (The count fields are written
through `len() as u16`; the hypotheses record that the sections fit, so
the count equals the length itself.) -/
theorem c5_encode_layout (p : DnsPacket)
    (hq : p.questions.length < 65536) (ha : p.answers.length < 65536)
    (hn : p.nameservers.length < 65536) (hr : p.addl_recs.length < 65536) :
    p.to_bytes =
      u16_to_big_endian_bytes p.id ++ p.flags.to_bytes ++
      u16_to_big_endian_bytes p.questions.length ++
      u16_to_big_endian_bytes p.answers.length ++
      u16_to_big_endian_bytes p.nameservers.length ++
      u16_to_big_endian_bytes p.addl_recs.length ++
      p.questions.flatMap DnsQuestion.to_bytes ++
      p.answers.flatMap DnsResourceRecord.to_bytes ++
      p.nameservers.flatMap DnsResourceRecord.to_bytes ++
      p.addl_recs.flatMap DnsResourceRecord.to_bytes := by
  unfold DnsPacket.to_bytes
  rw [Nat.mod_eq_of_lt hq, Nat.mod_eq_of_lt ha, Nat.mod_eq_of_lt hn,
    Nat.mod_eq_of_lt hr]

/-- C5 witness: the layout fact instantiated at the concrete
`samplePacket`, with every hypothesis discharged by evaluation. -/
theorem c5_encode_layout_witness :
    samplePacket.questions.length < 65536 ∧
    samplePacket.answers.length < 65536 ∧
    samplePacket.nameservers.length < 65536 ∧
    samplePacket.addl_recs.length < 65536 ∧
    samplePacket.to_bytes =
      u16_to_big_endian_bytes samplePacket.id ++ samplePacket.flags.to_bytes ++
      u16_to_big_endian_bytes samplePacket.questions.length ++
      u16_to_big_endian_bytes samplePacket.answers.length ++
      u16_to_big_endian_bytes samplePacket.nameservers.length ++
      u16_to_big_endian_bytes samplePacket.addl_recs.length ++
      samplePacket.questions.flatMap DnsQuestion.to_bytes ++
      samplePacket.answers.flatMap DnsResourceRecord.to_bytes ++
      samplePacket.nameservers.flatMap DnsResourceRecord.to_bytes ++
      samplePacket.addl_recs.flatMap DnsResourceRecord.to_bytes :=
  ⟨by decide, by decide, by decide, by decide,
   c5_encode_layout samplePacket (by decide) (by decide) (by decide) (by decide)⟩

/-- Two bytes read at the exact end of a known leading segment. -/
theorem take2_at (pre mid rest : List Nat) (hm : mid.length = 2) :
    ((pre ++ (mid ++ rest)).drop pre.length).take 2 = mid := by
  rw [List.drop_left, ← hm, List.take_left]

/-- C9: each of the four 16-bit count fields emitted by
`DnsPacket::to_bytes` (bytes 4-5, 6-7, 8-9 and 10-11 for questions,
answers, nameservers and additional records) is the corresponding
section's length reduced mod 2^16 (`len() as u16`); consequently, for
every section holding more than 65535 entries, the emitted count no
longer equals the number of entries actually serialized after it. -/
theorem c9_count_mod_wrap (p : DnsPacket) :
    ((p.to_bytes.drop 4).take 2 =
        u16_to_big_endian_bytes (p.questions.length % 65536) ∧
      (p.to_bytes.drop 6).take 2 =
        u16_to_big_endian_bytes (p.answers.length % 65536) ∧
      (p.to_bytes.drop 8).take 2 =
        u16_to_big_endian_bytes (p.nameservers.length % 65536) ∧
      (p.to_bytes.drop 10).take 2 =
        u16_to_big_endian_bytes (p.addl_recs.length % 65536)) ∧
    ((65535 < p.questions.length →
        p.questions.length % 65536 ≠ p.questions.length) ∧
      (65535 < p.answers.length →
        p.answers.length % 65536 ≠ p.answers.length) ∧
      (65535 < p.nameservers.length →
        p.nameservers.length % 65536 ≠ p.nameservers.length) ∧
      (65535 < p.addl_recs.length →
        p.addl_recs.length % 65536 ≠ p.addl_recs.length)) := by
  refine ⟨⟨?_, ?_, ?_, ?_⟩,
    ⟨fun h => by omega, fun h => by omega, fun h => by omega,
     fun h => by omega⟩⟩
  · rw [show p.to_bytes =
        (u16_to_big_endian_bytes p.id ++ p.flags.to_bytes) ++
          (u16_to_big_endian_bytes (p.questions.length % 65536) ++
            (u16_to_big_endian_bytes (p.answers.length % 65536) ++
              (u16_to_big_endian_bytes (p.nameservers.length % 65536) ++
                (u16_to_big_endian_bytes (p.addl_recs.length % 65536) ++
                  (p.questions.flatMap DnsQuestion.to_bytes ++
                    (p.answers.flatMap DnsResourceRecord.to_bytes ++
                      (p.nameservers.flatMap DnsResourceRecord.to_bytes ++
                        p.addl_recs.flatMap DnsResourceRecord.to_bytes)))))))
      by simp [DnsPacket.to_bytes]]
    rw [show (4 : Nat) =
        (u16_to_big_endian_bytes p.id ++ p.flags.to_bytes).length by
      simp [u16_to_big_endian_bytes, DnsFlags.to_bytes]]
    exact take2_at _ _ _ (by simp [u16_to_big_endian_bytes])
  · rw [show p.to_bytes =
        (u16_to_big_endian_bytes p.id ++ p.flags.to_bytes ++
          u16_to_big_endian_bytes (p.questions.length % 65536)) ++
          (u16_to_big_endian_bytes (p.answers.length % 65536) ++
            (u16_to_big_endian_bytes (p.nameservers.length % 65536) ++
              (u16_to_big_endian_bytes (p.addl_recs.length % 65536) ++
                (p.questions.flatMap DnsQuestion.to_bytes ++
                  (p.answers.flatMap DnsResourceRecord.to_bytes ++
                    (p.nameservers.flatMap DnsResourceRecord.to_bytes ++
                      p.addl_recs.flatMap DnsResourceRecord.to_bytes))))))
      by simp [DnsPacket.to_bytes]]
    rw [show (6 : Nat) =
        (u16_to_big_endian_bytes p.id ++ p.flags.to_bytes ++
          u16_to_big_endian_bytes (p.questions.length % 65536)).length by
      simp [u16_to_big_endian_bytes, DnsFlags.to_bytes]]
    exact take2_at _ _ _ (by simp [u16_to_big_endian_bytes])
  · rw [show p.to_bytes =
        (u16_to_big_endian_bytes p.id ++ p.flags.to_bytes ++
          u16_to_big_endian_bytes (p.questions.length % 65536) ++
          u16_to_big_endian_bytes (p.answers.length % 65536)) ++
          (u16_to_big_endian_bytes (p.nameservers.length % 65536) ++
            (u16_to_big_endian_bytes (p.addl_recs.length % 65536) ++
              (p.questions.flatMap DnsQuestion.to_bytes ++
                (p.answers.flatMap DnsResourceRecord.to_bytes ++
                  (p.nameservers.flatMap DnsResourceRecord.to_bytes ++
                    p.addl_recs.flatMap DnsResourceRecord.to_bytes)))))
      by simp [DnsPacket.to_bytes]]
    rw [show (8 : Nat) =
        (u16_to_big_endian_bytes p.id ++ p.flags.to_bytes ++
          u16_to_big_endian_bytes (p.questions.length % 65536) ++
          u16_to_big_endian_bytes (p.answers.length % 65536)).length by
      simp [u16_to_big_endian_bytes, DnsFlags.to_bytes]]
    exact take2_at _ _ _ (by simp [u16_to_big_endian_bytes])
  · rw [show p.to_bytes =
        (u16_to_big_endian_bytes p.id ++ p.flags.to_bytes ++
          u16_to_big_endian_bytes (p.questions.length % 65536) ++
          u16_to_big_endian_bytes (p.answers.length % 65536) ++
          u16_to_big_endian_bytes (p.nameservers.length % 65536)) ++
          (u16_to_big_endian_bytes (p.addl_recs.length % 65536) ++
            (p.questions.flatMap DnsQuestion.to_bytes ++
              (p.answers.flatMap DnsResourceRecord.to_bytes ++
                (p.nameservers.flatMap DnsResourceRecord.to_bytes ++
                  p.addl_recs.flatMap DnsResourceRecord.to_bytes))))
      by simp [DnsPacket.to_bytes]]
    rw [show (10 : Nat) =
        (u16_to_big_endian_bytes p.id ++ p.flags.to_bytes ++
          u16_to_big_endian_bytes (p.questions.length % 65536) ++
          u16_to_big_endian_bytes (p.answers.length % 65536) ++
          u16_to_big_endian_bytes (p.nameservers.length % 65536)).length by
      simp [u16_to_big_endian_bytes, DnsFlags.to_bytes]]
    exact take2_at _ _ _ (by simp [u16_to_big_endian_bytes])

/-- C9 witness: the wraparound fact instantiated at `hugePacket`, whose
question section holds 65536 entries (so the overflow premise of the
inner implication is exercised: the emitted questions count is 0, which
differs from 65536). -/
theorem c9_count_mod_wrap_witness :
    65535 < hugePacket.questions.length ∧
    (((hugePacket.to_bytes.drop 4).take 2 =
        u16_to_big_endian_bytes (hugePacket.questions.length % 65536) ∧
      (hugePacket.to_bytes.drop 6).take 2 =
        u16_to_big_endian_bytes (hugePacket.answers.length % 65536) ∧
      (hugePacket.to_bytes.drop 8).take 2 =
        u16_to_big_endian_bytes (hugePacket.nameservers.length % 65536) ∧
      (hugePacket.to_bytes.drop 10).take 2 =
        u16_to_big_endian_bytes (hugePacket.addl_recs.length % 65536)) ∧
    ((65535 < hugePacket.questions.length →
        hugePacket.questions.length % 65536 ≠ hugePacket.questions.length) ∧
      (65535 < hugePacket.answers.length →
        hugePacket.answers.length % 65536 ≠ hugePacket.answers.length) ∧
      (65535 < hugePacket.nameservers.length →
        hugePacket.nameservers.length % 65536 ≠
          hugePacket.nameservers.length) ∧
      (65535 < hugePacket.addl_recs.length →
        hugePacket.addl_recs.length % 65536 ≠
          hugePacket.addl_recs.length))) :=
  have h : 65535 < hugePacket.questions.length := by
    show 65535 <
      (List.replicate 65536
        ({ qname := [], qtype := .A, qclass := .IN } : DnsQuestion)).length
    rw [List.length_replicate]
    omega
  ⟨h, c9_count_mod_wrap hugePacket⟩

/-- Bind on an ok result steps into the continuation. -/
@[simp] theorem dnsResult_bind_ok {α β : Type} (a : α) (f : α → DnsResult β) :
    (Except.ok a >>= f : DnsResult β) = f a := rfl

/-- Bind on an error result short-circuits. -/
@[simp] theorem dnsResult_bind_error {α β : Type} (e : DnsError)
    (f : α → DnsResult β) :
    ((Except.error e : DnsResult α) >>= f) = Except.error e := rfl

/-- A successful Rust slice has exactly the requested length. -/
theorem rustSlice_ok_length {bytes : List Nat} {a b : Nat} {s : List Nat}
    (h : rustSlice bytes a b = .ok s) : s.length = b - a := by
  unfold rustSlice at h
  split at h
  · next hc =>
    cases h
    simp only [List.length_take, List.length_drop]
    omega
  · cases h

/-- Decoding a name whose first control octet at `X` is a compression
pointer targeting `X` itself spins on that pointer, consuming one hop per
iteration, until the hop bound runs out. -/
theorem nameWorker_self_ptr (bytes : List Nat) (X c c2 : Nat)
    (hc : bytes[X]? = some c) (h192 : 192 ≤ c)
    (hc2 : bytes[X + 1]? = some c2) (htgt : (c &&& 63) * 256 + c2 = X) :
    ∀ hops fuel acc ret enc, hops < fuel →
      nameWorker bytes fuel hops X acc ret enc =
        .error .pointerLoopOrOverflow := by
  intro hops
  induction hops with
  | zero =>
    intro fuel acc ret enc hf
    obtain ⟨fuel, rfl⟩ : ∃ f, fuel = f + 1 := ⟨fuel - 1, by omega⟩
    unfold nameWorker
    rw [hc]
    have h0 : ¬ c = 0 := by omega
    have h63 : ¬ c ≤ 63 := by omega
    simp [h0, h63, h192]
  | succ n ih =>
    intro fuel acc ret enc hf
    obtain ⟨fuel, rfl⟩ : ∃ f, fuel = f + 1 := ⟨fuel - 1, by omega⟩
    unfold nameWorker
    rw [hc]
    have h0 : ¬ c = 0 := by omega
    have h63 : ¬ c ≤ 63 := by omega
    simp only [h0, h63, h192, if_false, if_true, ite_true, ite_false]
    simp only [hc2]
    rw [htgt]
    exact ih fuel acc (some (ret.getD (X + 2))) enc (by omega)

/-- C7: a buffer holding a compression pointer at offset `X` that targets
offset `X` itself makes name decoding return a PointerLoopOrOverflow
error once the bounded hop budget is exhausted; decoding is a total
function, so it terminates on every input by construction. -/
theorem c7_self_pointer_loop (bytes : List Nat) (X c c2 : Nat)
    (hc : bytes[X]? = some c) (h192 : 192 ≤ c)
    (hc2 : bytes[X + 1]? = some c2) (htgt : (c &&& 63) * 256 + c2 = X) :
    names.deserialize_name bytes X = .error .pointerLoopOrOverflow := by
  unfold names.deserialize_name
  exact nameWorker_self_ptr bytes X c c2 hc h192 hc2 htgt 64 512 [] none 0
    (by omega)

/-- C7 witness: the two-byte buffer `[0xC0, 0x00]` is a pointer at offset
0 targeting offset 0; decoding from 0 yields the pointer-loop error. -/
theorem c7_self_pointer_loop_witness :
    (([192, 0] : List Nat)[0]? = some 192) ∧ 192 ≤ 192 ∧
    (([192, 0] : List Nat)[0 + 1]? = some 0) ∧
    (192 &&& 63) * 256 + 0 = 0 ∧
    names.deserialize_name [192, 0] 0 = .error .pointerLoopOrOverflow :=
  ⟨by decide, by decide, by decide, by decide,
   c7_self_pointer_loop [192, 0] 0 192 0 (by decide) (by decide) (by decide)
     (by decide)⟩

/-- C8: whenever `DnsResourceRecord::from_bytes` succeeds, the returned
record's payload has exactly `rd_length` bytes, and the returned cursor
sits just past the payload: ten fixed-width bytes past the end of the
name, plus `rd_length` payload bytes. -/
theorem c8_rr_ok_invariant (bytes : List Nat) (pos : Nat)
    (rr : DnsResourceRecord) (pos2 : Nat)
    (h : DnsResourceRecord.from_bytes bytes pos = .ok (rr, pos2)) :
    rr.record.length = rr.rd_length ∧
    ∃ np, names.deserialize_name bytes pos = .ok (rr.name, np) ∧
      pos2 = np + 10 + rr.rd_length := by
  unfold DnsResourceRecord.from_bytes at h
  cases hname : names.deserialize_name bytes pos with
  | error e => rw [hname] at h; simp at h
  | ok v =>
    obtain ⟨name, np⟩ := v
    rw [hname] at h
    simp only [dnsResult_bind_ok] at h
    cases hs1 : rustSlice bytes np (np + 2) with
    | error e => rw [hs1] at h; simp at h
    | ok s1 =>
      rw [hs1] at h
      simp only [dnsResult_bind_ok] at h
      cases ht1 : big_endian_bytes_to_u16 s1 with
      | error e => rw [ht1] at h; simp at h
      | ok rrtype_num =>
        rw [ht1] at h
        simp only [dnsResult_bind_ok] at h
        cases hs2 : rustSlice bytes (np + 2) (np + 4) with
        | error e => rw [hs2] at h; simp at h
        | ok s2 =>
          rw [hs2] at h
          simp only [dnsResult_bind_ok] at h
          cases ht2 : big_endian_bytes_to_u16 s2 with
          | error e => rw [ht2] at h; simp at h
          | ok class_num =>
            rw [ht2] at h
            simp only [dnsResult_bind_ok] at h
            cases hs3 : rustSlice bytes (np + 4) (np + 8) with
            | error e => rw [hs3] at h; simp at h
            | ok s3 =>
              rw [hs3] at h
              simp only [dnsResult_bind_ok] at h
              cases ht3 : big_endian_bytes_to_u32 s3 with
              | error e => rw [ht3] at h; simp at h
              | ok ttl =>
                rw [ht3] at h
                simp only [dnsResult_bind_ok] at h
                cases hs4 : rustSlice bytes (np + 8) (np + 10) with
                | error e => rw [hs4] at h; simp at h
                | ok s4 =>
                  rw [hs4] at h
                  simp only [dnsResult_bind_ok] at h
                  cases ht4 : big_endian_bytes_to_u16 s4 with
                  | error e => rw [ht4] at h; simp at h
                  | ok rd_length =>
                    rw [ht4] at h
                    simp only [dnsResult_bind_ok] at h
                    cases hrec : rustSlice bytes (np + 10) (np + 10 + rd_length) with
                    | error e => rw [hrec] at h; simp at h
                    | ok record =>
                      rw [hrec] at h
                      simp only [dnsResult_bind_ok] at h
                      cases hty : DnsRRType.from_u16 rrtype_num with
                      | none => rw [hty] at h; simp [expectSome] at h
                      | some rr_type =>
                        rw [hty] at h
                        simp only [expectSome, dnsResult_bind_ok] at h
                        cases hcl : DnsClass.from_u16 class_num with
                        | none => rw [hcl] at h; simp [expectSome] at h
                        | some class_ =>
                          rw [hcl] at h
                          simp only [expectSome, dnsResult_bind_ok] at h
                          have hinj := h
                          rw [Except.ok.injEq, Prod.mk.injEq] at hinj
                          obtain ⟨hrr, hpos⟩ := hinj
                          subst hrr
                          refine ⟨?_, np, ?_, ?_⟩
                          · show record.length = rd_length
                            have hlen := rustSlice_ok_length hrec
                            omega
                          · rfl
                          · show pos2 = np + 10 + rd_length
                            omega

/-- C8 witness: decoding the concrete record buffer `rrBuf` succeeds with
payload `[9, 9]`, length field 2 and final cursor 13 (one root-name byte,
ten fixed-width bytes, two payload bytes), and the invariant instantiates
there. -/
theorem c8_rr_ok_invariant_witness :
    DnsResourceRecord.from_bytes rrBuf 0 = .ok (rrVal, 13) ∧
    (rrVal.record.length = rrVal.rd_length ∧
      ∃ np, names.deserialize_name rrBuf 0 = .ok (rrVal.name, np) ∧
        13 = np + 10 + rrVal.rd_length) :=
  ⟨by decide, c8_rr_ok_invariant rrBuf 0 rrVal 13 (by decide)⟩

/-- Masking with 255 is reduction mod 256. -/
theorem and_255_eq_mod (m : Nat) : m &&& 255 = m % 256 := by
  have h := Nat.and_pow_two_sub_one_eq_mod m 8
  norm_num at h
  exact h

/-- A 16-bit value survives the encode-then-parse round trip. -/
theorem u16_parse_enc {n : Nat} (h : n < 65536) :
    big_endian_bytes_to_u16 (u16_to_big_endian_bytes n) = .ok n := by
  unfold big_endian_bytes_to_u16 u16_to_big_endian_bytes listIndexP
  simp only [List.getElem?_cons_zero, List.getElem?_cons_succ,
    dnsResult_bind_ok]
  refine congrArg Except.ok ?_
  rw [and_255_eq_mod, and_255_eq_mod, Nat.shiftLeft_eq,
    Nat.shiftRight_eq_div_pow]
  norm_num
  omega

/-- A 32-bit value survives the encode-then-parse round trip. -/
theorem u32_parse_enc {n : Nat} (h : n < 4294967296) :
    big_endian_bytes_to_u32 (u32_to_big_endian_bytes n) = .ok n := by
  unfold big_endian_bytes_to_u32 u32_to_big_endian_bytes listIndexP
  simp only [List.getElem?_cons_zero, List.getElem?_cons_succ,
    dnsResult_bind_ok]
  refine congrArg Except.ok ?_
  rw [and_255_eq_mod, and_255_eq_mod, and_255_eq_mod, and_255_eq_mod,
    Nat.shiftLeft_eq, Nat.shiftLeft_eq, Nat.shiftLeft_eq,
    Nat.shiftRight_eq_div_pow, Nat.shiftRight_eq_div_pow,
    Nat.shiftRight_eq_div_pow]
  norm_num
  omega

/-- Slicing a buffer at the exact extent of a middle segment returns that
segment. -/
theorem rustSlice_of_shape {bytes pre mid rest : List Nat} {a b : Nat}
    (hb : bytes = pre ++ (mid ++ rest)) (ha : a = pre.length)
    (hlen : b = a + mid.length) :
    rustSlice bytes a b = .ok mid := by
  subst hb ha hlen
  unfold rustSlice
  rw [if_pos]
  · rw [Nat.add_sub_cancel_left, List.drop_left, List.take_left]
  · refine ⟨by omega, ?_⟩
    simp [List.length_append]

/-- Flag byte 0 round trip: every bit extracted by `DnsFlags::from_bytes`
from the byte built by `DnsFlags::to_bytes` recovers the source field. -/
theorem flagByte0_rt (qr aa tc rd : Bool) (op : DnsOpcode) :
    ((mkFlagByte0 qr aa tc rd op >>> 7) &&& 1 == 1) = qr ∧
    ((mkFlagByte0 qr aa tc rd op >>> 2) &&& 1 == 1) = aa ∧
    ((mkFlagByte0 qr aa tc rd op >>> 1) &&& 1 == 1) = tc ∧
    (mkFlagByte0 qr aa tc rd op &&& 1 == 1) = rd ∧
    DnsOpcode.from_u8 ((mkFlagByte0 qr aa tc rd op >>> 3) &&& 15) = some op := by
  cases qr <;> cases aa <;> cases tc <;> cases rd <;> cases op <;> decide

/-- Flag byte 1 round trip. -/
theorem flagByte1_rt (ra ad cd : Bool) (rc : DnsRCode) :
    ((mkFlagByte1 ra ad cd rc >>> 7) &&& 1 == 1) = ra ∧
    ((mkFlagByte1 ra ad cd rc >>> 5) &&& 1 == 1) = ad ∧
    ((mkFlagByte1 ra ad cd rc >>> 4) &&& 1 == 1) = cd ∧
    DnsRCode.from_u8 (mkFlagByte1 ra ad cd rc &&& 15) = some rc := by
  cases ra <;> cases ad <;> cases cd <;> cases rc <;> decide

/-- Flags encode-then-decode is the identity. -/
theorem DnsFlags.roundtrip (f : DnsFlags) :
    DnsFlags.from_bytes f.to_bytes = .ok f := by
  obtain ⟨qr, op, aa, tc, rd, ra, ad, cd, rc⟩ := f
  obtain ⟨h1, h2, h3, h4, h5⟩ := flagByte0_rt qr aa tc rd op
  obtain ⟨g1, g2, g3, g4⟩ := flagByte1_rt ra ad cd rc
  unfold DnsFlags.from_bytes DnsFlags.to_bytes listIndexP
  simp only [List.getElem?_cons_zero, List.getElem?_cons_succ,
    dnsResult_bind_ok]
  rw [h5, g4]
  simp only [expectSome, dnsResult_bind_ok]
  rw [h1, h2, h3, h4, g1, g2, g3]

/-- The record-type registry inverts its own discriminants. -/
theorem rrtype_from_to_u16 (t : DnsRRType) :
    DnsRRType.from_u16 t.to_u16 = some t := by
  cases t <;> rfl

/-- The class registry inverts its own discriminants. -/
theorem class_from_to_u16 (c : DnsClass) :
    DnsClass.from_u16 c.to_u16 = some c := by
  cases c <;> rfl

/-- Record-type discriminants fit in 16 bits. -/
theorem rrtype_to_u16_lt (t : DnsRRType) : t.to_u16 < 65536 := by
  cases t <;> decide

/-- Class discriminants fit in 16 bits. -/
theorem class_to_u16_lt (c : DnsClass) : c.to_u16 < 65536 := by
  cases c <;> decide

/-- Reading the byte exactly at the end of a known segment. -/
theorem getElem_at_junction (pre : List Nat) (x : Nat) (post : List Nat) :
    (pre ++ x :: post)[pre.length]? = some x := by
  rw [List.getElem?_append_right (Nat.le_refl _)]
  simp

/-- A name of nonempty labels has at least as many encoded bytes as
labels. -/
theorem flatMap_len_ge (name : List (List Nat))
    (h : ∀ l ∈ name, 1 ≤ l.length) :
    name.length ≤ (name.flatMap fun l => l.length :: l).length := by
  induction name with
  | nil => simp
  | cons l ls ih =>
    have h2 := ih (fun x hx => h x (by simp [hx]))
    simp only [List.flatMap_cons, List.length_append, List.length_cons]
    omega

/-- Decoding the uncompressed encoding of a sequence of 1-63 byte labels,
placed after an arbitrary preamble and before arbitrary trailing bytes,
accumulates exactly those labels and stops one byte past the
terminator. -/
theorem nameWorker_rt (labels : List (List Nat)) :
    ∀ (fuel hops enc : Nat) (pre rest : List Nat) (acc : List (List Nat)),
    (∀ l ∈ labels, 1 ≤ l.length ∧ l.length ≤ 63) →
    enc + (labels.flatMap fun l => l.length :: l).length ≤ 254 →
    labels.length < fuel →
    nameWorker (pre ++ (labels.flatMap fun l => l.length :: l) ++ 0 :: rest)
        fuel hops pre.length acc none enc =
      .ok (acc ++ labels,
        pre.length + (labels.flatMap fun l => l.length :: l).length + 1) := by
  induction labels with
  | nil =>
    intro fuel hops enc pre rest acc _ henc hfuel
    obtain ⟨fuel, rfl⟩ : ∃ f, fuel = f + 1 := ⟨fuel - 1, by omega⟩
    have hbuf : pre ++ (List.flatMap [] fun l => l.length :: l) ++ 0 :: rest
        = pre ++ 0 :: rest := by simp
    rw [hbuf]
    unfold nameWorker
    rw [getElem_at_junction]
    simp
  | cons l ls ih =>
    intro fuel hops enc pre rest acc hlab henc hfuel
    obtain ⟨fuel, rfl⟩ : ∃ f, fuel = f + 1 := ⟨fuel - 1, by omega⟩
    simp only [List.length_cons] at hfuel
    have hl := hlab l (by simp)
    have hflat : (List.flatMap (l :: ls) fun x => x.length :: x).length
        = 1 + l.length + (List.flatMap ls fun x => x.length :: x).length := by
      simp only [List.flatMap_cons, List.length_append, List.length_cons]
      omega
    have hbuf : pre ++ (List.flatMap (l :: ls) fun x => x.length :: x) ++ 0 :: rest
        = pre ++ l.length ::
            (l ++ ((List.flatMap ls fun x => x.length :: x) ++ 0 :: rest)) := by
      simp [List.flatMap_cons]
    rw [hbuf]
    unfold nameWorker
    rw [getElem_at_junction]
    simp only
    rw [if_neg (by omega : ¬ l.length = 0), if_pos (by omega : l.length ≤ 63),
      if_pos, if_pos (by omega : enc + 1 + l.length ≤ 254)]
    · have hdrop :
          ((pre ++ l.length ::
              (l ++ ((List.flatMap ls fun x => x.length :: x) ++ 0 :: rest))).drop
            (pre.length + 1)) =
            l ++ ((List.flatMap ls fun x => x.length :: x) ++ 0 :: rest) := by
        have hsh : pre ++ l.length ::
            (l ++ ((List.flatMap ls fun x => x.length :: x) ++ 0 :: rest))
            = (pre ++ [l.length]) ++
              (l ++ ((List.flatMap ls fun x => x.length :: x) ++ 0 :: rest)) := by
          simp
        rw [hsh, List.drop_left']
        simp
      rw [hdrop, List.take_left]
      have hbuf2 : pre ++ l.length ::
          (l ++ ((List.flatMap ls fun x => x.length :: x) ++ 0 :: rest))
          = (pre ++ l.length :: l) ++
            (List.flatMap ls fun x => x.length :: x) ++ 0 :: rest := by
        simp
      have hpos : pre.length + 1 + l.length = (pre ++ l.length :: l).length := by
        simp [List.length_append]
        omega
      have hih := ih fuel hops (enc + 1 + l.length) (pre ++ l.length :: l) rest
        (acc ++ [l]) (fun x hx => hlab x (by simp [hx])) (by omega) (by omega)
      rw [hbuf2, hpos, hih]
      refine congrArg Except.ok ?_
      rw [Prod.mk.injEq]
      constructor
      · simp
      · simp only [List.length_append, List.length_cons]
        omega
    · simp only [List.length_append, List.length_cons]
      omega

/-- The encoded length of a serialized name: label bytes and length octets
plus the terminator. -/
theorem serialize_name_length (name : List (List Nat)) :
    (names.serialize_name name).length =
      (name.flatMap fun l => l.length :: l).length + 1 := by
  simp [names.serialize_name]

/-- Name decode inverts name encode at any buffer position, for names of
1-63 byte labels whose encoding fits 255 bytes. -/
theorem deserialize_enc (name : List (List Nat)) (pre rest : List Nat)
    (h1 : ∀ l ∈ name, 1 ≤ l.length ∧ l.length ≤ 63)
    (h2 : (names.serialize_name name).length ≤ 255) :
    names.deserialize_name (pre ++ names.serialize_name name ++ rest)
        pre.length =
      .ok (name, pre.length + (names.serialize_name name).length) := by
  have hsl := serialize_name_length name
  have hcount : name.length < 512 := by
    have := flatMap_len_ge name (fun l hl => (h1 l hl).1)
    omega
  have hbuf : pre ++ names.serialize_name name ++ rest
      = pre ++ (name.flatMap fun l => l.length :: l) ++ 0 :: rest := by
    simp [names.serialize_name]
  rw [hbuf]
  unfold names.deserialize_name
  rw [nameWorker_rt name 512 64 0 pre rest [] h1 (by omega) hcount]
  refine congrArg Except.ok ?_
  rw [Prod.mk.injEq]
  constructor
  · simp
  · omega

/-- Question decode inverts question encode at any buffer position. -/
theorem readQuestion_enc (q : DnsQuestion) (pre rest : List Nat)
    (hv : ValidQuestion q) :
    readQuestion (pre ++ q.to_bytes ++ rest) pre.length
      = .ok (q, pre.length + q.to_bytes.length) := by
  obtain ⟨qname, qtype, qclass⟩ := q
  obtain ⟨hlab, hlen⟩ := hv
  have h1 : ∀ l ∈ qname, 1 ≤ l.length ∧ l.length ≤ 63 :=
    fun l hl => ⟨(hlab l hl).1, (hlab l hl).2.1⟩
  have hbuf : pre ++ DnsQuestion.to_bytes ⟨qname, qtype, qclass⟩ ++ rest
      = pre ++ names.serialize_name qname ++
        (u16_to_big_endian_bytes qtype.to_u16 ++
          (u16_to_big_endian_bytes qclass.to_u16 ++ rest)) := by
    simp [DnsQuestion.to_bytes]
  rw [hbuf]
  unfold readQuestion
  rw [deserialize_enc qname pre
    (u16_to_big_endian_bytes qtype.to_u16 ++
      (u16_to_big_endian_bytes qclass.to_u16 ++ rest)) h1 hlen]
  simp only [dnsResult_bind_ok]
  have hs1 : rustSlice
      (pre ++ names.serialize_name qname ++
        (u16_to_big_endian_bytes qtype.to_u16 ++
          (u16_to_big_endian_bytes qclass.to_u16 ++ rest)))
      (pre.length + (names.serialize_name qname).length)
      (pre.length + (names.serialize_name qname).length + 2)
      = .ok (u16_to_big_endian_bytes qtype.to_u16) :=
    rustSlice_of_shape rfl
      (by simp only [List.length_append]; all_goals omega)
      (by simp only [u16_to_big_endian_bytes, List.length_cons,
            List.length_nil]; all_goals omega)
  rw [hs1]
  simp only [dnsResult_bind_ok]
  rw [u16_parse_enc (rrtype_to_u16_lt qtype)]
  simp only [dnsResult_bind_ok]
  have hs2 : rustSlice
      (pre ++ names.serialize_name qname ++
        (u16_to_big_endian_bytes qtype.to_u16 ++
          (u16_to_big_endian_bytes qclass.to_u16 ++ rest)))
      (pre.length + (names.serialize_name qname).length + 2)
      (pre.length + (names.serialize_name qname).length + 4)
      = .ok (u16_to_big_endian_bytes qclass.to_u16) := by
    rw [show pre ++ names.serialize_name qname ++
        (u16_to_big_endian_bytes qtype.to_u16 ++
          (u16_to_big_endian_bytes qclass.to_u16 ++ rest))
      = (pre ++ names.serialize_name qname ++
          u16_to_big_endian_bytes qtype.to_u16) ++
        (u16_to_big_endian_bytes qclass.to_u16 ++ rest) by simp]
    exact rustSlice_of_shape rfl
      (by simp only [List.length_append, u16_to_big_endian_bytes,
            List.length_cons, List.length_nil]; all_goals omega)
      (by simp only [u16_to_big_endian_bytes, List.length_cons,
            List.length_nil]; all_goals omega)
  rw [hs2]
  simp only [dnsResult_bind_ok]
  rw [u16_parse_enc (class_to_u16_lt qclass)]
  simp only [dnsResult_bind_ok]
  rw [rrtype_from_to_u16, class_from_to_u16]
  simp only [expectSome, dnsResult_bind_ok]
  refine congrArg Except.ok ?_
  rw [Prod.mk.injEq]
  refine ⟨rfl, ?_⟩
  simp only [DnsQuestion.to_bytes, u16_to_big_endian_bytes,
    List.length_append, List.length_cons, List.length_nil]
  omega

/-- Resource-record decode inverts resource-record encode at any buffer
position, for records satisfying the data model's constraints. -/
theorem rr_from_enc (rr : DnsResourceRecord) (pre rest : List Nat)
    (hv : ValidRR rr) :
    DnsResourceRecord.from_bytes (pre ++ rr.to_bytes ++ rest) pre.length
      = .ok (rr, pre.length + rr.to_bytes.length) := by
  obtain ⟨name, rr_type, class_, ttl, rd_length, record⟩ := rr
  obtain ⟨⟨hlab, hlen⟩, httl, hrdl, hrlen, -⟩ := hv
  have h1 : ∀ l ∈ name, 1 ≤ l.length ∧ l.length ≤ 63 :=
    fun l hl => ⟨(hlab l hl).1, (hlab l hl).2.1⟩
  simp only at hrdl hrlen httl
  subst hrdl
  have hbuf : pre ++
      DnsResourceRecord.to_bytes
        ⟨name, rr_type, class_, ttl, record.length, record⟩ ++ rest
      = pre ++ names.serialize_name name ++
        (u16_to_big_endian_bytes rr_type.to_u16 ++
          (u16_to_big_endian_bytes class_.to_u16 ++
            (u32_to_big_endian_bytes ttl ++
              (u16_to_big_endian_bytes record.length ++
                (record ++ rest))))) := by
    simp [DnsResourceRecord.to_bytes]
  rw [hbuf]
  unfold DnsResourceRecord.from_bytes
  rw [deserialize_enc name pre
    (u16_to_big_endian_bytes rr_type.to_u16 ++
      (u16_to_big_endian_bytes class_.to_u16 ++
        (u32_to_big_endian_bytes ttl ++
          (u16_to_big_endian_bytes record.length ++ (record ++ rest)))))
    h1 hlen]
  simp only [dnsResult_bind_ok]
  have hs1 : rustSlice
      (pre ++ names.serialize_name name ++
        (u16_to_big_endian_bytes rr_type.to_u16 ++
          (u16_to_big_endian_bytes class_.to_u16 ++
            (u32_to_big_endian_bytes ttl ++
              (u16_to_big_endian_bytes record.length ++ (record ++ rest))))))
      (pre.length + (names.serialize_name name).length)
      (pre.length + (names.serialize_name name).length + 2)
      = .ok (u16_to_big_endian_bytes rr_type.to_u16) :=
    rustSlice_of_shape rfl
      (by simp [List.length_append])
      (by simp [u16_to_big_endian_bytes])
  rw [hs1]
  simp only [dnsResult_bind_ok]
  rw [u16_parse_enc (rrtype_to_u16_lt rr_type)]
  simp only [dnsResult_bind_ok]
  have hs2 : rustSlice
      (pre ++ names.serialize_name name ++
        (u16_to_big_endian_bytes rr_type.to_u16 ++
          (u16_to_big_endian_bytes class_.to_u16 ++
            (u32_to_big_endian_bytes ttl ++
              (u16_to_big_endian_bytes record.length ++ (record ++ rest))))))
      (pre.length + (names.serialize_name name).length + 2)
      (pre.length + (names.serialize_name name).length + 4)
      = .ok (u16_to_big_endian_bytes class_.to_u16) := by
    rw [show pre ++ names.serialize_name name ++
        (u16_to_big_endian_bytes rr_type.to_u16 ++
          (u16_to_big_endian_bytes class_.to_u16 ++
            (u32_to_big_endian_bytes ttl ++
              (u16_to_big_endian_bytes record.length ++ (record ++ rest)))))
      = (pre ++ names.serialize_name name ++
          u16_to_big_endian_bytes rr_type.to_u16) ++
        (u16_to_big_endian_bytes class_.to_u16 ++
          (u32_to_big_endian_bytes ttl ++
            (u16_to_big_endian_bytes record.length ++ (record ++ rest))))
      by simp]
    exact rustSlice_of_shape rfl
      (by simp only [List.length_append, u16_to_big_endian_bytes,
            List.length_cons, List.length_nil]; all_goals omega)
      (by simp only [u16_to_big_endian_bytes, List.length_cons,
            List.length_nil]; all_goals omega)
  rw [hs2]
  simp only [dnsResult_bind_ok]
  rw [u16_parse_enc (class_to_u16_lt class_)]
  simp only [dnsResult_bind_ok]
  have hs3 : rustSlice
      (pre ++ names.serialize_name name ++
        (u16_to_big_endian_bytes rr_type.to_u16 ++
          (u16_to_big_endian_bytes class_.to_u16 ++
            (u32_to_big_endian_bytes ttl ++
              (u16_to_big_endian_bytes record.length ++ (record ++ rest))))))
      (pre.length + (names.serialize_name name).length + 4)
      (pre.length + (names.serialize_name name).length + 8)
      = .ok (u32_to_big_endian_bytes ttl) := by
    rw [show pre ++ names.serialize_name name ++
        (u16_to_big_endian_bytes rr_type.to_u16 ++
          (u16_to_big_endian_bytes class_.to_u16 ++
            (u32_to_big_endian_bytes ttl ++
              (u16_to_big_endian_bytes record.length ++ (record ++ rest)))))
      = (pre ++ names.serialize_name name ++
          u16_to_big_endian_bytes rr_type.to_u16 ++
          u16_to_big_endian_bytes class_.to_u16) ++
        (u32_to_big_endian_bytes ttl ++
          (u16_to_big_endian_bytes record.length ++ (record ++ rest)))
      by simp]
    exact rustSlice_of_shape rfl
      (by simp only [List.length_append, u16_to_big_endian_bytes,
            List.length_cons, List.length_nil]; all_goals omega)
      (by simp only [u32_to_big_endian_bytes, List.length_cons,
            List.length_nil]; all_goals omega)
  rw [hs3]
  simp only [dnsResult_bind_ok]
  rw [u32_parse_enc httl]
  simp only [dnsResult_bind_ok]
  have hs4 : rustSlice
      (pre ++ names.serialize_name name ++
        (u16_to_big_endian_bytes rr_type.to_u16 ++
          (u16_to_big_endian_bytes class_.to_u16 ++
            (u32_to_big_endian_bytes ttl ++
              (u16_to_big_endian_bytes record.length ++ (record ++ rest))))))
      (pre.length + (names.serialize_name name).length + 8)
      (pre.length + (names.serialize_name name).length + 10)
      = .ok (u16_to_big_endian_bytes record.length) := by
    rw [show pre ++ names.serialize_name name ++
        (u16_to_big_endian_bytes rr_type.to_u16 ++
          (u16_to_big_endian_bytes class_.to_u16 ++
            (u32_to_big_endian_bytes ttl ++
              (u16_to_big_endian_bytes record.length ++ (record ++ rest)))))
      = (pre ++ names.serialize_name name ++
          u16_to_big_endian_bytes rr_type.to_u16 ++
          u16_to_big_endian_bytes class_.to_u16 ++
          u32_to_big_endian_bytes ttl) ++
        (u16_to_big_endian_bytes record.length ++ (record ++ rest))
      by simp]
    exact rustSlice_of_shape rfl
      (by simp only [List.length_append, u16_to_big_endian_bytes,
            u32_to_big_endian_bytes, List.length_cons, List.length_nil]
          all_goals omega)
      (by simp only [u16_to_big_endian_bytes, List.length_cons,
            List.length_nil]; all_goals omega)
  rw [hs4]
  simp only [dnsResult_bind_ok]
  rw [u16_parse_enc hrlen]
  simp only [dnsResult_bind_ok]
  have hs5 : rustSlice
      (pre ++ names.serialize_name name ++
        (u16_to_big_endian_bytes rr_type.to_u16 ++
          (u16_to_big_endian_bytes class_.to_u16 ++
            (u32_to_big_endian_bytes ttl ++
              (u16_to_big_endian_bytes record.length ++ (record ++ rest))))))
      (pre.length + (names.serialize_name name).length + 10)
      (pre.length + (names.serialize_name name).length + 10 + record.length)
      = .ok record := by
    rw [show pre ++ names.serialize_name name ++
        (u16_to_big_endian_bytes rr_type.to_u16 ++
          (u16_to_big_endian_bytes class_.to_u16 ++
            (u32_to_big_endian_bytes ttl ++
              (u16_to_big_endian_bytes record.length ++ (record ++ rest)))))
      = (pre ++ names.serialize_name name ++
          u16_to_big_endian_bytes rr_type.to_u16 ++
          u16_to_big_endian_bytes class_.to_u16 ++
          u32_to_big_endian_bytes ttl ++
          u16_to_big_endian_bytes record.length) ++
        (record ++ rest)
      by simp]
    exact rustSlice_of_shape rfl
      (by simp only [List.length_append, u16_to_big_endian_bytes,
            u32_to_big_endian_bytes, List.length_cons, List.length_nil]
          all_goals omega)
      (by omega)
  rw [hs5]
  simp only [dnsResult_bind_ok]
  rw [rrtype_from_to_u16, class_from_to_u16]
  simp only [expectSome, dnsResult_bind_ok]
  refine congrArg Except.ok ?_
  rw [Prod.mk.injEq]
  refine ⟨rfl, ?_⟩
  simp only [DnsResourceRecord.to_bytes, u16_to_big_endian_bytes,
    u32_to_big_endian_bytes, List.length_append, List.length_cons,
    List.length_nil]
  omega

/-- The question loop decodes a concatenation of encoded questions back to
the original list, advancing the cursor past all of them. -/
theorem readQuestions_enc (qs : List DnsQuestion) :
    ∀ (pre rest : List Nat),
    (∀ q ∈ qs, ValidQuestion q) →
    readQuestions (pre ++ qs.flatMap DnsQuestion.to_bytes ++ rest)
        qs.length pre.length
      = .ok (qs, pre.length + (qs.flatMap DnsQuestion.to_bytes).length) := by
  induction qs with
  | nil =>
    intro pre rest _
    simp [readQuestions]
  | cons q qs ih =>
    intro pre rest hv
    have hbuf : pre ++ (List.flatMap (q :: qs) DnsQuestion.to_bytes) ++ rest
        = pre ++ q.to_bytes ++ (qs.flatMap DnsQuestion.to_bytes ++ rest) := by
      simp [List.flatMap_cons]
    rw [hbuf]
    simp only [List.length_cons]
    unfold readQuestions
    rw [readQuestion_enc q pre (qs.flatMap DnsQuestion.to_bytes ++ rest)
      (hv q (by simp))]
    simp only [dnsResult_bind_ok]
    have hb2 : pre ++ q.to_bytes ++ (qs.flatMap DnsQuestion.to_bytes ++ rest)
        = (pre ++ q.to_bytes) ++ qs.flatMap DnsQuestion.to_bytes ++ rest := by
      simp
    have hpos : pre.length + q.to_bytes.length = (pre ++ q.to_bytes).length := by
      simp [List.length_append]
    rw [hb2, hpos, ih (pre ++ q.to_bytes) rest (fun x hx => hv x (by simp [hx]))]
    simp only [dnsResult_bind_ok]
    refine congrArg Except.ok ?_
    rw [Prod.mk.injEq]
    refine ⟨rfl, ?_⟩
    simp only [List.length_append, List.flatMap_cons]
    omega

/-- A resource-record loop decodes a concatenation of encoded records back
to the original list, advancing the cursor past all of them. -/
theorem readRRs_enc (rrs : List DnsResourceRecord) :
    ∀ (pre rest : List Nat),
    (∀ rr ∈ rrs, ValidRR rr) →
    readRRs (pre ++ rrs.flatMap DnsResourceRecord.to_bytes ++ rest)
        rrs.length pre.length
      = .ok (rrs,
          pre.length + (rrs.flatMap DnsResourceRecord.to_bytes).length) := by
  induction rrs with
  | nil =>
    intro pre rest _
    simp [readRRs]
  | cons rr rrs ih =>
    intro pre rest hv
    have hbuf : pre ++
        (List.flatMap (rr :: rrs) DnsResourceRecord.to_bytes) ++ rest
        = pre ++ rr.to_bytes ++
          (rrs.flatMap DnsResourceRecord.to_bytes ++ rest) := by
      simp [List.flatMap_cons]
    rw [hbuf]
    simp only [List.length_cons]
    unfold readRRs
    rw [rr_from_enc rr pre (rrs.flatMap DnsResourceRecord.to_bytes ++ rest)
      (hv rr (by simp))]
    simp only [dnsResult_bind_ok]
    have hb2 : pre ++ rr.to_bytes ++
        (rrs.flatMap DnsResourceRecord.to_bytes ++ rest)
        = (pre ++ rr.to_bytes) ++
          rrs.flatMap DnsResourceRecord.to_bytes ++ rest := by
      simp
    have hpos : pre.length + rr.to_bytes.length
        = (pre ++ rr.to_bytes).length := by
      simp [List.length_append]
    rw [hb2, hpos,
      ih (pre ++ rr.to_bytes) rest (fun x hx => hv x (by simp [hx]))]
    simp only [dnsResult_bind_ok]
    refine congrArg Except.ok ?_
    rw [Prod.mk.injEq]
    refine ⟨rfl, ?_⟩
    simp only [List.length_append, List.flatMap_cons]
    omega

/-- Slicing the primary segment off the front of a buffer. -/
theorem rustSlice_first (mid rest : List Nat) (b : Nat) (hb : b = mid.length) :
    rustSlice (mid ++ rest) 0 b = .ok mid := by
  subst hb
  unfold rustSlice
  rw [if_pos]
  · simp [List.take_left]
  · refine ⟨by omega, by simp⟩

/-- C4: for every packet meeting the data model's per-field length
constraints (16-bit id, 1-63 byte labels with names encodable in 255
bytes, 32-bit TTLs, record length fields equal to the stored payload
lengths, sections shorter than 2^16), decoding the encoding returns the
packet unchanged.  Names are encoded uncompressed, so no compression
pointers occur. -/
theorem c4_decode_encode (p : DnsPacket) (hv : ValidPacket p) :
    DnsPacket.from_bytes p.to_bytes = .ok p := by
  obtain ⟨id, flags, questions, answers, nameservers, addl_recs⟩ := p
  obtain ⟨hid, hq, ha, hn, hr, hql, hal, hnl, hrl⟩ := hv
  simp only at hid hq ha hn hr hql hal hnl hrl
  have hbuf : DnsPacket.to_bytes
      ⟨id, flags, questions, answers, nameservers, addl_recs⟩
      = u16_to_big_endian_bytes id ++
        (flags.to_bytes ++
          (u16_to_big_endian_bytes questions.length ++
            (u16_to_big_endian_bytes answers.length ++
              (u16_to_big_endian_bytes nameservers.length ++
                (u16_to_big_endian_bytes addl_recs.length ++
                  (questions.flatMap DnsQuestion.to_bytes ++
                    (answers.flatMap DnsResourceRecord.to_bytes ++
                      (nameservers.flatMap DnsResourceRecord.to_bytes ++
                        addl_recs.flatMap DnsResourceRecord.to_bytes)))))))) := by
    simp [DnsPacket.to_bytes, Nat.mod_eq_of_lt hql, Nat.mod_eq_of_lt hal,
      Nat.mod_eq_of_lt hnl, Nat.mod_eq_of_lt hrl]
  rw [hbuf]
  set W1 := u16_to_big_endian_bytes id with hW1
  set W2 := flags.to_bytes with hW2
  set W3 := u16_to_big_endian_bytes questions.length with hW3
  set W4 := u16_to_big_endian_bytes answers.length with hW4
  set W5 := u16_to_big_endian_bytes nameservers.length with hW5
  set W6 := u16_to_big_endian_bytes addl_recs.length with hW6
  have l1 : W1.length = 2 := by rw [hW1]; simp [u16_to_big_endian_bytes]
  have l2 : W2.length = 2 := by rw [hW2]; simp [DnsFlags.to_bytes]
  have l3 : W3.length = 2 := by rw [hW3]; simp [u16_to_big_endian_bytes]
  have l4 : W4.length = 2 := by rw [hW4]; simp [u16_to_big_endian_bytes]
  have l5 : W5.length = 2 := by rw [hW5]; simp [u16_to_big_endian_bytes]
  have l6 : W6.length = 2 := by rw [hW6]; simp [u16_to_big_endian_bytes]
  unfold DnsPacket.from_bytes
  have h1 : rustSlice
      (W1 ++ (W2 ++ (W3 ++ (W4 ++ (W5 ++ (W6 ++
        (questions.flatMap DnsQuestion.to_bytes ++
          (answers.flatMap DnsResourceRecord.to_bytes ++
            (nameservers.flatMap DnsResourceRecord.to_bytes ++
              addl_recs.flatMap DnsResourceRecord.to_bytes))))))))) 0 2
      = .ok W1 :=
    rustSlice_first _ _ _ (by omega)
  rw [h1]
  simp only [dnsResult_bind_ok]
  have p1 : big_endian_bytes_to_u16 W1 = .ok id := by
    rw [hW1]; exact u16_parse_enc hid
  rw [p1]
  simp only [dnsResult_bind_ok]
  have h2 : rustSlice
      (W1 ++ (W2 ++ (W3 ++ (W4 ++ (W5 ++ (W6 ++
        (questions.flatMap DnsQuestion.to_bytes ++
          (answers.flatMap DnsResourceRecord.to_bytes ++
            (nameservers.flatMap DnsResourceRecord.to_bytes ++
              addl_recs.flatMap DnsResourceRecord.to_bytes))))))))) 2 4
      = .ok W2 :=
    rustSlice_of_shape rfl (by omega) (by omega)
  rw [h2]
  simp only [dnsResult_bind_ok]
  have p2 : DnsFlags.from_bytes W2 = .ok flags := by
    rw [hW2]; exact DnsFlags.roundtrip flags
  rw [p2]
  simp only [dnsResult_bind_ok]
  have h3 : rustSlice
      (W1 ++ (W2 ++ (W3 ++ (W4 ++ (W5 ++ (W6 ++
        (questions.flatMap DnsQuestion.to_bytes ++
          (answers.flatMap DnsResourceRecord.to_bytes ++
            (nameservers.flatMap DnsResourceRecord.to_bytes ++
              addl_recs.flatMap DnsResourceRecord.to_bytes))))))))) 4 6
      = .ok W3 := by
    rw [show W1 ++ (W2 ++ (W3 ++ (W4 ++ (W5 ++ (W6 ++
        (questions.flatMap DnsQuestion.to_bytes ++
          (answers.flatMap DnsResourceRecord.to_bytes ++
            (nameservers.flatMap DnsResourceRecord.to_bytes ++
              addl_recs.flatMap DnsResourceRecord.to_bytes))))))))
        = (W1 ++ W2) ++ (W3 ++ (W4 ++ (W5 ++ (W6 ++
            (questions.flatMap DnsQuestion.to_bytes ++
              (answers.flatMap DnsResourceRecord.to_bytes ++
                (nameservers.flatMap DnsResourceRecord.to_bytes ++
                  addl_recs.flatMap DnsResourceRecord.to_bytes)))))))
      by simp]
    exact rustSlice_of_shape rfl
      (by simp only [List.length_append]; omega) (by omega)
  rw [h3]
  simp only [dnsResult_bind_ok]
  have p3 : big_endian_bytes_to_u16 W3 = .ok questions.length := by
    rw [hW3]; exact u16_parse_enc hql
  rw [p3]
  simp only [dnsResult_bind_ok]
  have h4 : rustSlice
      (W1 ++ (W2 ++ (W3 ++ (W4 ++ (W5 ++ (W6 ++
        (questions.flatMap DnsQuestion.to_bytes ++
          (answers.flatMap DnsResourceRecord.to_bytes ++
            (nameservers.flatMap DnsResourceRecord.to_bytes ++
              addl_recs.flatMap DnsResourceRecord.to_bytes))))))))) 6 8
      = .ok W4 := by
    rw [show W1 ++ (W2 ++ (W3 ++ (W4 ++ (W5 ++ (W6 ++
        (questions.flatMap DnsQuestion.to_bytes ++
          (answers.flatMap DnsResourceRecord.to_bytes ++
            (nameservers.flatMap DnsResourceRecord.to_bytes ++
              addl_recs.flatMap DnsResourceRecord.to_bytes))))))))
        = (W1 ++ W2 ++ W3) ++ (W4 ++ (W5 ++ (W6 ++
            (questions.flatMap DnsQuestion.to_bytes ++
              (answers.flatMap DnsResourceRecord.to_bytes ++
                (nameservers.flatMap DnsResourceRecord.to_bytes ++
                  addl_recs.flatMap DnsResourceRecord.to_bytes))))))
      by simp]
    exact rustSlice_of_shape rfl
      (by simp only [List.length_append]; omega) (by omega)
  rw [h4]
  simp only [dnsResult_bind_ok]
  have p4 : big_endian_bytes_to_u16 W4 = .ok answers.length := by
    rw [hW4]; exact u16_parse_enc hal
  rw [p4]
  simp only [dnsResult_bind_ok]
  have h5 : rustSlice
      (W1 ++ (W2 ++ (W3 ++ (W4 ++ (W5 ++ (W6 ++
        (questions.flatMap DnsQuestion.to_bytes ++
          (answers.flatMap DnsResourceRecord.to_bytes ++
            (nameservers.flatMap DnsResourceRecord.to_bytes ++
              addl_recs.flatMap DnsResourceRecord.to_bytes))))))))) 8 10
      = .ok W5 := by
    rw [show W1 ++ (W2 ++ (W3 ++ (W4 ++ (W5 ++ (W6 ++
        (questions.flatMap DnsQuestion.to_bytes ++
          (answers.flatMap DnsResourceRecord.to_bytes ++
            (nameservers.flatMap DnsResourceRecord.to_bytes ++
              addl_recs.flatMap DnsResourceRecord.to_bytes))))))))
        = (W1 ++ W2 ++ W3 ++ W4) ++ (W5 ++ (W6 ++
            (questions.flatMap DnsQuestion.to_bytes ++
              (answers.flatMap DnsResourceRecord.to_bytes ++
                (nameservers.flatMap DnsResourceRecord.to_bytes ++
                  addl_recs.flatMap DnsResourceRecord.to_bytes)))))
      by simp]
    exact rustSlice_of_shape rfl
      (by simp only [List.length_append]; omega) (by omega)
  rw [h5]
  simp only [dnsResult_bind_ok]
  have p5 : big_endian_bytes_to_u16 W5 = .ok nameservers.length := by
    rw [hW5]; exact u16_parse_enc hnl
  rw [p5]
  simp only [dnsResult_bind_ok]
  have h6 : rustSlice
      (W1 ++ (W2 ++ (W3 ++ (W4 ++ (W5 ++ (W6 ++
        (questions.flatMap DnsQuestion.to_bytes ++
          (answers.flatMap DnsResourceRecord.to_bytes ++
            (nameservers.flatMap DnsResourceRecord.to_bytes ++
              addl_recs.flatMap DnsResourceRecord.to_bytes))))))))) 10 12
      = .ok W6 := by
    rw [show W1 ++ (W2 ++ (W3 ++ (W4 ++ (W5 ++ (W6 ++
        (questions.flatMap DnsQuestion.to_bytes ++
          (answers.flatMap DnsResourceRecord.to_bytes ++
            (nameservers.flatMap DnsResourceRecord.to_bytes ++
              addl_recs.flatMap DnsResourceRecord.to_bytes))))))))
        = (W1 ++ W2 ++ W3 ++ W4 ++ W5) ++ (W6 ++
            (questions.flatMap DnsQuestion.to_bytes ++
              (answers.flatMap DnsResourceRecord.to_bytes ++
                (nameservers.flatMap DnsResourceRecord.to_bytes ++
                  addl_recs.flatMap DnsResourceRecord.to_bytes))))
      by simp]
    exact rustSlice_of_shape rfl
      (by simp only [List.length_append]; omega) (by omega)
  rw [h6]
  simp only [dnsResult_bind_ok]
  have p6 : big_endian_bytes_to_u16 W6 = .ok addl_recs.length := by
    rw [hW6]; exact u16_parse_enc hrl
  rw [p6]
  simp only [dnsResult_bind_ok]
  have hL1 : readQuestions
      (W1 ++ (W2 ++ (W3 ++ (W4 ++ (W5 ++ (W6 ++
        (questions.flatMap DnsQuestion.to_bytes ++
          (answers.flatMap DnsResourceRecord.to_bytes ++
            (nameservers.flatMap DnsResourceRecord.to_bytes ++
              addl_recs.flatMap DnsResourceRecord.to_bytes)))))))))
      questions.length 12
      = .ok (questions,
          (W1 ++ W2 ++ W3 ++ W4 ++ W5 ++ W6).length +
            (questions.flatMap DnsQuestion.to_bytes).length) := by
    rw [show W1 ++ (W2 ++ (W3 ++ (W4 ++ (W5 ++ (W6 ++
        (questions.flatMap DnsQuestion.to_bytes ++
          (answers.flatMap DnsResourceRecord.to_bytes ++
            (nameservers.flatMap DnsResourceRecord.to_bytes ++
              addl_recs.flatMap DnsResourceRecord.to_bytes))))))))
        = (W1 ++ W2 ++ W3 ++ W4 ++ W5 ++ W6) ++
            questions.flatMap DnsQuestion.to_bytes ++
            (answers.flatMap DnsResourceRecord.to_bytes ++
              (nameservers.flatMap DnsResourceRecord.to_bytes ++
                addl_recs.flatMap DnsResourceRecord.to_bytes))
      by simp]
    rw [show (12 : Nat) = (W1 ++ W2 ++ W3 ++ W4 ++ W5 ++ W6).length by
      simp only [List.length_append]; omega]
    exact readQuestions_enc questions _ _ hq
  rw [hL1]
  simp only [dnsResult_bind_ok]
  have hL2 : readRRs
      (W1 ++ (W2 ++ (W3 ++ (W4 ++ (W5 ++ (W6 ++
        (questions.flatMap DnsQuestion.to_bytes ++
          (answers.flatMap DnsResourceRecord.to_bytes ++
            (nameservers.flatMap DnsResourceRecord.to_bytes ++
              addl_recs.flatMap DnsResourceRecord.to_bytes)))))))))
      answers.length
      ((W1 ++ W2 ++ W3 ++ W4 ++ W5 ++ W6).length +
        (questions.flatMap DnsQuestion.to_bytes).length)
      = .ok (answers,
          (W1 ++ W2 ++ W3 ++ W4 ++ W5 ++ W6 ++
            questions.flatMap DnsQuestion.to_bytes).length +
            (answers.flatMap DnsResourceRecord.to_bytes).length) := by
    rw [show W1 ++ (W2 ++ (W3 ++ (W4 ++ (W5 ++ (W6 ++
        (questions.flatMap DnsQuestion.to_bytes ++
          (answers.flatMap DnsResourceRecord.to_bytes ++
            (nameservers.flatMap DnsResourceRecord.to_bytes ++
              addl_recs.flatMap DnsResourceRecord.to_bytes))))))))
        = (W1 ++ W2 ++ W3 ++ W4 ++ W5 ++ W6 ++
            questions.flatMap DnsQuestion.to_bytes) ++
            answers.flatMap DnsResourceRecord.to_bytes ++
            (nameservers.flatMap DnsResourceRecord.to_bytes ++
              addl_recs.flatMap DnsResourceRecord.to_bytes)
      by simp]
    rw [show (W1 ++ W2 ++ W3 ++ W4 ++ W5 ++ W6).length +
        (questions.flatMap DnsQuestion.to_bytes).length
        = (W1 ++ W2 ++ W3 ++ W4 ++ W5 ++ W6 ++
            questions.flatMap DnsQuestion.to_bytes).length by
      simp only [List.length_append]]
    exact readRRs_enc answers _ _ ha
  rw [hL2]
  simp only [dnsResult_bind_ok]
  have hL3 : readRRs
      (W1 ++ (W2 ++ (W3 ++ (W4 ++ (W5 ++ (W6 ++
        (questions.flatMap DnsQuestion.to_bytes ++
          (answers.flatMap DnsResourceRecord.to_bytes ++
            (nameservers.flatMap DnsResourceRecord.to_bytes ++
              addl_recs.flatMap DnsResourceRecord.to_bytes)))))))))
      nameservers.length
      ((W1 ++ W2 ++ W3 ++ W4 ++ W5 ++ W6 ++
          questions.flatMap DnsQuestion.to_bytes).length +
        (answers.flatMap DnsResourceRecord.to_bytes).length)
      = .ok (nameservers,
          (W1 ++ W2 ++ W3 ++ W4 ++ W5 ++ W6 ++
            questions.flatMap DnsQuestion.to_bytes ++
            answers.flatMap DnsResourceRecord.to_bytes).length +
            (nameservers.flatMap DnsResourceRecord.to_bytes).length) := by
    rw [show W1 ++ (W2 ++ (W3 ++ (W4 ++ (W5 ++ (W6 ++
        (questions.flatMap DnsQuestion.to_bytes ++
          (answers.flatMap DnsResourceRecord.to_bytes ++
            (nameservers.flatMap DnsResourceRecord.to_bytes ++
              addl_recs.flatMap DnsResourceRecord.to_bytes))))))))
        = (W1 ++ W2 ++ W3 ++ W4 ++ W5 ++ W6 ++
            questions.flatMap DnsQuestion.to_bytes ++
            answers.flatMap DnsResourceRecord.to_bytes) ++
            nameservers.flatMap DnsResourceRecord.to_bytes ++
            addl_recs.flatMap DnsResourceRecord.to_bytes
      by simp]
    rw [show (W1 ++ W2 ++ W3 ++ W4 ++ W5 ++ W6 ++
          questions.flatMap DnsQuestion.to_bytes).length +
        (answers.flatMap DnsResourceRecord.to_bytes).length
        = (W1 ++ W2 ++ W3 ++ W4 ++ W5 ++ W6 ++
            questions.flatMap DnsQuestion.to_bytes ++
            answers.flatMap DnsResourceRecord.to_bytes).length by
      simp only [List.length_append]]
    exact readRRs_enc nameservers _ _ hn
  rw [hL3]
  simp only [dnsResult_bind_ok]
  have hL4 : readRRs
      (W1 ++ (W2 ++ (W3 ++ (W4 ++ (W5 ++ (W6 ++
        (questions.flatMap DnsQuestion.to_bytes ++
          (answers.flatMap DnsResourceRecord.to_bytes ++
            (nameservers.flatMap DnsResourceRecord.to_bytes ++
              addl_recs.flatMap DnsResourceRecord.to_bytes)))))))))
      addl_recs.length
      ((W1 ++ W2 ++ W3 ++ W4 ++ W5 ++ W6 ++
          questions.flatMap DnsQuestion.to_bytes ++
          answers.flatMap DnsResourceRecord.to_bytes).length +
        (nameservers.flatMap DnsResourceRecord.to_bytes).length)
      = .ok (addl_recs,
          (W1 ++ W2 ++ W3 ++ W4 ++ W5 ++ W6 ++
            questions.flatMap DnsQuestion.to_bytes ++
            answers.flatMap DnsResourceRecord.to_bytes ++
            nameservers.flatMap DnsResourceRecord.to_bytes).length +
            (addl_recs.flatMap DnsResourceRecord.to_bytes).length) := by
    rw [show W1 ++ (W2 ++ (W3 ++ (W4 ++ (W5 ++ (W6 ++
        (questions.flatMap DnsQuestion.to_bytes ++
          (answers.flatMap DnsResourceRecord.to_bytes ++
            (nameservers.flatMap DnsResourceRecord.to_bytes ++
              addl_recs.flatMap DnsResourceRecord.to_bytes))))))))
        = (W1 ++ W2 ++ W3 ++ W4 ++ W5 ++ W6 ++
            questions.flatMap DnsQuestion.to_bytes ++
            answers.flatMap DnsResourceRecord.to_bytes ++
            nameservers.flatMap DnsResourceRecord.to_bytes) ++
            addl_recs.flatMap DnsResourceRecord.to_bytes ++ []
      by simp]
    rw [show (W1 ++ W2 ++ W3 ++ W4 ++ W5 ++ W6 ++
          questions.flatMap DnsQuestion.to_bytes ++
          answers.flatMap DnsResourceRecord.to_bytes).length +
        (nameservers.flatMap DnsResourceRecord.to_bytes).length
        = (W1 ++ W2 ++ W3 ++ W4 ++ W5 ++ W6 ++
            questions.flatMap DnsQuestion.to_bytes ++
            answers.flatMap DnsResourceRecord.to_bytes ++
            nameservers.flatMap DnsResourceRecord.to_bytes).length by
      simp only [List.length_append]]
    exact readRRs_enc addl_recs _ _ hr
  rw [hL4]
  simp only [dnsResult_bind_ok]

/-- C4 witness: the round trip instantiated at the concrete
`samplePacket` (one question, one answer record), with validity checked
by evaluation. -/
theorem c4_decode_encode_witness :
    ValidPacket samplePacket ∧
    DnsPacket.from_bytes samplePacket.to_bytes = .ok samplePacket :=
  ⟨by decide, c4_decode_encode samplePacket (by decide)⟩

/-- An in-bounds indexed read is unchanged by appending bytes. -/
theorem getElem_append_of_ok {bytes : List Nat} {i x : Nat} (s : List Nat)
    (h : bytes[i]? = some x) : (bytes ++ s)[i]? = some x := by
  have hi : i < bytes.length := by
    by_contra hx
    rw [List.getElem?_eq_none (by omega)] at h
    cases h
  rw [List.getElem?_append_left hi]
  exact h

/-- A successful slice is unchanged by appending bytes. -/
theorem rustSlice_append_of_ok {bytes : List Nat} {a b : Nat} {v : List Nat}
    (s : List Nat) (h : rustSlice bytes a b = .ok v) :
    rustSlice (bytes ++ s) a b = .ok v := by
  unfold rustSlice at h ⊢
  split at h
  · next hc =>
    cases h
    rw [if_pos]
    · have hdrop : (bytes ++ s).drop a = bytes.drop a ++ s :=
        List.drop_append_of_le_length (by omega)
      rw [hdrop, List.take_append_of_le_length]
      simp only [List.length_drop]
      omega
    · refine ⟨by omega, ?_⟩
      simp only [List.length_append]
      omega
  · cases h

/-- A successful name-decode step sequence is unchanged by appending
bytes to the buffer. -/
theorem nameWorker_append (bytes s : List Nat) :
    ∀ fuel hops cur acc ret enc v,
      nameWorker bytes fuel hops cur acc ret enc = .ok v →
      nameWorker (bytes ++ s) fuel hops cur acc ret enc = .ok v := by
  intro fuel
  induction fuel with
  | zero =>
    intro hops cur acc ret enc v h
    exact absurd h (by simp [nameWorker])
  | succ fuel ih =>
    intro hops cur acc ret enc v h
    unfold nameWorker at h ⊢
    cases hcur : bytes[cur]? with
    | none =>
      rw [hcur] at h
      simp at h
    | some c =>
      rw [hcur] at h
      rw [getElem_append_of_ok s hcur]
      simp only at h ⊢
      by_cases hc0 : c = 0
      · rw [if_pos hc0] at h ⊢
        exact h
      · rw [if_neg hc0] at h ⊢
        by_cases hc63 : c ≤ 63
        · rw [if_pos hc63] at h ⊢
          by_cases hb : cur + 1 + c ≤ bytes.length
          · rw [if_pos hb] at h
            rw [if_pos (show cur + 1 + c ≤ (bytes ++ s).length by
              simp only [List.length_append]; omega)]
            by_cases he : enc + 1 + c ≤ 254
            · rw [if_pos he] at h ⊢
              have hslice : ((bytes ++ s).drop (cur + 1)).take c
                  = (bytes.drop (cur + 1)).take c := by
                rw [List.drop_append_of_le_length (by omega),
                  List.take_append_of_le_length]
                simp only [List.length_drop]
                omega
              rw [hslice]
              exact ih hops (cur + 1 + c)
                (acc ++ [(bytes.drop (cur + 1)).take c]) ret (enc + 1 + c) v h
            · rw [if_neg he] at h
              simp at h
          · rw [if_neg hb] at h
            simp at h
        · rw [if_neg hc63] at h ⊢
          by_cases hc192 : 192 ≤ c
          · rw [if_pos hc192] at h ⊢
            cases hops with
            | zero => simp at h
            | succ hops2 =>
              simp only at h ⊢
              cases hc2 : bytes[cur + 1]? with
              | none =>
                rw [hc2] at h
                simp at h
              | some c2 =>
                rw [hc2] at h
                rw [getElem_append_of_ok s hc2]
                simp only at h ⊢
                exact ih hops2 ((c &&& 63) * 256 + c2) acc
                  (some (ret.getD (cur + 2))) enc v h
          · rw [if_neg hc192] at h
            simp at h

/-- A successful name decode is unchanged by appending bytes. -/
theorem deserialize_name_append (bytes s : List Nat) (pos : Nat)
    (v : List (List Nat) × Nat)
    (h : names.deserialize_name bytes pos = .ok v) :
    names.deserialize_name (bytes ++ s) pos = .ok v := by
  unfold names.deserialize_name at h ⊢
  exact nameWorker_append bytes s 512 64 pos [] none 0 v h

/-- A successful question decode is unchanged by appending bytes. -/
theorem readQuestion_append (bytes s : List Nat) (pos : Nat)
    (v : DnsQuestion × Nat) (h : readQuestion bytes pos = .ok v) :
    readQuestion (bytes ++ s) pos = .ok v := by
  unfold readQuestion at h ⊢
  cases hname : names.deserialize_name bytes pos with
  | error e => rw [hname] at h; simp at h
  | ok nv =>
    obtain ⟨qname, np⟩ := nv
    rw [hname] at h
    rw [deserialize_name_append bytes s pos _ hname]
    simp only [dnsResult_bind_ok] at h ⊢
    cases hs1 : rustSlice bytes np (np + 2) with
    | error e => rw [hs1] at h; simp at h
    | ok s1 =>
      rw [hs1] at h
      rw [rustSlice_append_of_ok s hs1]
      simp only [dnsResult_bind_ok] at h ⊢
      cases ht1 : big_endian_bytes_to_u16 s1 with
      | error e => rw [ht1] at h; simp at h
      | ok qt =>
        rw [ht1] at h
        simp only [dnsResult_bind_ok] at h ⊢
        cases hs2 : rustSlice bytes (np + 2) (np + 4) with
        | error e => rw [hs2] at h; simp at h
        | ok s2 =>
          rw [hs2] at h
          rw [rustSlice_append_of_ok s hs2]
          simp only [dnsResult_bind_ok] at h ⊢
          exact h

/-- A successful resource-record decode is unchanged by appending
bytes. -/
theorem rr_from_bytes_append (bytes s : List Nat) (pos : Nat)
    (v : DnsResourceRecord × Nat)
    (h : DnsResourceRecord.from_bytes bytes pos = .ok v) :
    DnsResourceRecord.from_bytes (bytes ++ s) pos = .ok v := by
  unfold DnsResourceRecord.from_bytes at h ⊢
  cases hname : names.deserialize_name bytes pos with
  | error e => rw [hname] at h; simp at h
  | ok nv =>
    obtain ⟨name, np⟩ := nv
    rw [hname] at h
    rw [deserialize_name_append bytes s pos _ hname]
    simp only [dnsResult_bind_ok] at h ⊢
    cases hs1 : rustSlice bytes np (np + 2) with
    | error e => rw [hs1] at h; simp at h
    | ok s1 =>
      rw [hs1] at h
      rw [rustSlice_append_of_ok s hs1]
      simp only [dnsResult_bind_ok] at h ⊢
      cases ht1 : big_endian_bytes_to_u16 s1 with
      | error e => rw [ht1] at h; simp at h
      | ok n1 =>
        rw [ht1] at h
        simp only [dnsResult_bind_ok] at h ⊢
        cases hs2 : rustSlice bytes (np + 2) (np + 4) with
        | error e => rw [hs2] at h; simp at h
        | ok s2 =>
          rw [hs2] at h
          rw [rustSlice_append_of_ok s hs2]
          simp only [dnsResult_bind_ok] at h ⊢
          cases ht2 : big_endian_bytes_to_u16 s2 with
          | error e => rw [ht2] at h; simp at h
          | ok n2 =>
            rw [ht2] at h
            simp only [dnsResult_bind_ok] at h ⊢
            cases hs3 : rustSlice bytes (np + 4) (np + 8) with
            | error e => rw [hs3] at h; simp at h
            | ok s3 =>
              rw [hs3] at h
              rw [rustSlice_append_of_ok s hs3]
              simp only [dnsResult_bind_ok] at h ⊢
              cases ht3 : big_endian_bytes_to_u32 s3 with
              | error e => rw [ht3] at h; simp at h
              | ok n3 =>
                rw [ht3] at h
                simp only [dnsResult_bind_ok] at h ⊢
                cases hs4 : rustSlice bytes (np + 8) (np + 10) with
                | error e => rw [hs4] at h; simp at h
                | ok s4 =>
                  rw [hs4] at h
                  rw [rustSlice_append_of_ok s hs4]
                  simp only [dnsResult_bind_ok] at h ⊢
                  cases ht4 : big_endian_bytes_to_u16 s4 with
                  | error e => rw [ht4] at h; simp at h
                  | ok n4 =>
                    rw [ht4] at h
                    simp only [dnsResult_bind_ok] at h ⊢
                    cases hs5 : rustSlice bytes (np + 10) (np + 10 + n4) with
                    | error e => rw [hs5] at h; simp at h
                    | ok s5 =>
                      rw [hs5] at h
                      rw [rustSlice_append_of_ok s hs5]
                      simp only [dnsResult_bind_ok] at h ⊢
                      exact h

/-- A successful question loop is unchanged by appending bytes. -/
theorem readQuestions_append (bytes s : List Nat) :
    ∀ (count pos : Nat) (v : List DnsQuestion × Nat),
      readQuestions bytes count pos = .ok v →
      readQuestions (bytes ++ s) count pos = .ok v := by
  intro count
  induction count with
  | zero => intro pos v h; exact h
  | succ count ih =>
    intro pos v h
    unfold readQuestions at h ⊢
    cases hq : readQuestion bytes pos with
    | error e => rw [hq] at h; simp at h
    | ok qv =>
      obtain ⟨q, pos1⟩ := qv
      rw [hq] at h
      rw [readQuestion_append bytes s pos _ hq]
      simp only [dnsResult_bind_ok] at h ⊢
      cases hqs : readQuestions bytes count pos1 with
      | error e => rw [hqs] at h; simp at h
      | ok qsv =>
        obtain ⟨qs, pos2⟩ := qsv
        rw [hqs] at h
        rw [ih pos1 _ hqs]
        simp only [dnsResult_bind_ok] at h ⊢
        exact h

/-- A successful resource-record loop is unchanged by appending bytes. -/
theorem readRRs_append (bytes s : List Nat) :
    ∀ (count pos : Nat) (v : List DnsResourceRecord × Nat),
      readRRs bytes count pos = .ok v →
      readRRs (bytes ++ s) count pos = .ok v := by
  intro count
  induction count with
  | zero => intro pos v h; exact h
  | succ count ih =>
    intro pos v h
    unfold readRRs at h ⊢
    cases hq : DnsResourceRecord.from_bytes bytes pos with
    | error e => rw [hq] at h; simp at h
    | ok rv =>
      obtain ⟨rr, pos1⟩ := rv
      rw [hq] at h
      rw [rr_from_bytes_append bytes s pos _ hq]
      simp only [dnsResult_bind_ok] at h ⊢
      cases hrs : readRRs bytes count pos1 with
      | error e => rw [hrs] at h; simp at h
      | ok rsv =>
        obtain ⟨rs, pos2⟩ := rsv
        rw [hrs] at h
        rw [ih pos1 _ hrs]
        simp only [dnsResult_bind_ok] at h ⊢
        exact h

/-- C10: packet decode never inspects bytes beyond what the declared
header counts consume: appending any byte sequence to a successfully
decoded buffer leaves the decode result unchanged (trailing surplus bytes
are silently ignored, not an error). -/
theorem c10_trailing_ignored (b s : List Nat) (p : DnsPacket)
    (h : DnsPacket.from_bytes b = .ok p) :
    DnsPacket.from_bytes (b ++ s) = .ok p := by
  unfold DnsPacket.from_bytes at h ⊢
  cases h0 : rustSlice b 0 2 with
  | error e => rw [h0] at h; simp at h
  | ok s0 =>
    rw [h0] at h
    rw [rustSlice_append_of_ok s h0]
    simp only [dnsResult_bind_ok] at h ⊢
    cases hid : big_endian_bytes_to_u16 s0 with
    | error e => rw [hid] at h; simp at h
    | ok idv =>
      rw [hid] at h
      simp only [dnsResult_bind_ok] at h ⊢
      cases hf : rustSlice b 2 4 with
      | error e => rw [hf] at h; simp at h
      | ok sf =>
        rw [hf] at h
        rw [rustSlice_append_of_ok s hf]
        simp only [dnsResult_bind_ok] at h ⊢
        cases hfl : DnsFlags.from_bytes sf with
        | error e => rw [hfl] at h; simp at h
        | ok flags =>
          rw [hfl] at h
          simp only [dnsResult_bind_ok] at h ⊢
          cases hc1 : rustSlice b 4 6 with
          | error e => rw [hc1] at h; simp at h
          | ok sc1 =>
            rw [hc1] at h
            rw [rustSlice_append_of_ok s hc1]
            simp only [dnsResult_bind_ok] at h ⊢
            cases hq1 : big_endian_bytes_to_u16 sc1 with
            | error e => rw [hq1] at h; simp at h
            | ok qd =>
              rw [hq1] at h
              simp only [dnsResult_bind_ok] at h ⊢
              cases hc2 : rustSlice b 6 8 with
              | error e => rw [hc2] at h; simp at h
              | ok sc2 =>
                rw [hc2] at h
                rw [rustSlice_append_of_ok s hc2]
                simp only [dnsResult_bind_ok] at h ⊢
                cases hq2 : big_endian_bytes_to_u16 sc2 with
                | error e => rw [hq2] at h; simp at h
                | ok an =>
                  rw [hq2] at h
                  simp only [dnsResult_bind_ok] at h ⊢
                  cases hc3 : rustSlice b 8 10 with
                  | error e => rw [hc3] at h; simp at h
                  | ok sc3 =>
                    rw [hc3] at h
                    rw [rustSlice_append_of_ok s hc3]
                    simp only [dnsResult_bind_ok] at h ⊢
                    cases hq3 : big_endian_bytes_to_u16 sc3 with
                    | error e => rw [hq3] at h; simp at h
                    | ok ns =>
                      rw [hq3] at h
                      simp only [dnsResult_bind_ok] at h ⊢
                      cases hc4 : rustSlice b 10 12 with
                      | error e => rw [hc4] at h; simp at h
                      | ok sc4 =>
                        rw [hc4] at h
                        rw [rustSlice_append_of_ok s hc4]
                        simp only [dnsResult_bind_ok] at h ⊢
                        cases hq4 : big_endian_bytes_to_u16 sc4 with
                        | error e => rw [hq4] at h; simp at h
                        | ok ar =>
                          rw [hq4] at h
                          simp only [dnsResult_bind_ok] at h ⊢
                          cases hl1 : readQuestions b qd 12 with
                          | error e => rw [hl1] at h; simp at h
                          | ok qv =>
                            obtain ⟨questions, pos1⟩ := qv
                            rw [hl1] at h
                            rw [readQuestions_append b s qd 12 _ hl1]
                            simp only [dnsResult_bind_ok] at h ⊢
                            cases hl2 : readRRs b an pos1 with
                            | error e => rw [hl2] at h; simp at h
                            | ok av =>
                              obtain ⟨answers, pos2⟩ := av
                              rw [hl2] at h
                              rw [readRRs_append b s an pos1 _ hl2]
                              simp only [dnsResult_bind_ok] at h ⊢
                              cases hl3 : readRRs b ns pos2 with
                              | error e => rw [hl3] at h; simp at h
                              | ok nv =>
                                obtain ⟨nss, pos3⟩ := nv
                                rw [hl3] at h
                                rw [readRRs_append b s ns pos2 _ hl3]
                                simp only [dnsResult_bind_ok] at h ⊢
                                cases hl4 : readRRs b ar pos3 with
                                | error e => rw [hl4] at h; simp at h
                                | ok rv =>
                                  obtain ⟨ars, pos4⟩ := rv
                                  rw [hl4] at h
                                  rw [readRRs_append b s ar pos3 _ hl4]
                                  simp only [dnsResult_bind_ok] at h ⊢
                                  exact h

/-- C10 witness: the minimal 12-byte all-zero header decodes to the empty
query packet, and appending a surplus byte leaves the result unchanged. -/
theorem c10_trailing_ignored_witness :
    DnsPacket.from_bytes (List.replicate 12 0) =
      .ok { id := 0,
            flags := { qr_bit := false, opcode := .Query, aa_bit := false,
                       tc_bit := false, rd_bit := false, ra_bit := false,
                       ad_bit := false, cd_bit := false, rcode := .NoError },
            questions := [], answers := [], nameservers := [],
            addl_recs := [] } ∧
    DnsPacket.from_bytes (List.replicate 12 0 ++ [255]) =
      .ok { id := 0,
            flags := { qr_bit := false, opcode := .Query, aa_bit := false,
                       tc_bit := false, rd_bit := false, ra_bit := false,
                       ad_bit := false, cd_bit := false, rcode := .NoError },
            questions := [], answers := [], nameservers := [],
            addl_recs := [] } :=
  ⟨by decide,
   c10_trailing_ignored (List.replicate 12 0) [255] _ (by decide)⟩
